import Mathlib

/-!
Shallow embedding of the webhook event-matching and automation-dispatch
pipeline of the Instagram automation backend (src/server/routes.ts,
src/server/storage.ts, src/server/lib/instagram.ts, and the scheduled
message processor revision), together with theorems settling the frozen
claims about its specification.

JavaScript conventions are modelled explicitly: `Option` stands for a
possibly `undefined`/`null` value, string truthiness is "non-empty",
`NaN` arising from `Number(...)` is modelled by `none`, and list/record
state replaces the database tables.
-/

namespace Insta

/-- JS string truthiness: `undefined`, `null` and `""` are falsy. -/
def truthyS (o : Option String) : Bool := o.getD "" ≠ ""

/-- Split a character list at every occurrence of `c`
(`String.prototype.split` on a one-character separator). -/
def splitOnChar (c : Char) : List Char → List (List Char)
  | [] => [[]]
  | x :: xs =>
    match splitOnChar c xs with
    | [] => [[]]
    | h :: t => if x = c then [] :: h :: t else (x :: h) :: t

/-- Digit-string value for `Number(...)`: `none` models `NaN`. -/
def digitsVal : List Char → Option Nat
  | [] => some 0
  | c :: rest =>
    match digitsVal rest with
    | none => none
    | some _ =>
      if c.isDigit then
        (digitsValGo (c :: rest) 0)
      else none
where
  digitsValGo : List Char → Nat → Option Nat
    | [], acc => some acc
    | c :: rest, acc =>
      if c.isDigit then digitsValGo rest (acc * 10 + (c.toNat - 48))
      else none

/-- `Number(s)` on the strings this code feeds it: `""` is `0`, digit
strings parse, anything else is `NaN` (modelled as `none`). -/
def jsNum (s : String) : Option Nat :=
  if s = "" then some 0 else digitsVal s.data

/-- Lowercasing through the character list
(`String.prototype.toLowerCase`). -/
def jsToLower (s : String) : String :=
  String.mk (s.data.map Char.toLower)

/-- `String.prototype.trim`. -/
def jsTrim (s : String) : String :=
  String.mk
    (((s.data.dropWhile Char.isWhitespace).reverse.dropWhile Char.isWhitespace).reverse)

/-- `String.prototype.startsWith`. -/
def jsStartsWith (s pat : String) : Bool :=
  s.data.take pat.data.length = pat.data

/-- `a <= b` where either operand may be `NaN` (any comparison with `NaN`
is false in JS). -/
def jsLe : Option Nat → Option Nat → Bool
  | some a, some b => a ≤ b
  | _, _ => false

/-- `a < b` with `NaN` semantics. -/
def jsLt : Option Nat → Option Nat → Bool
  | some a, some b => a < b
  | _, _ => false

/-- `a > b` with `NaN` semantics. -/
def jsGt : Option Nat → Option Nat → Bool
  | some a, some b => b < a
  | _, _ => false

/-- `d.charAt(0).toUpperCase() + d.slice(1).toLowerCase()` from
`isWithinSchedule`. -/
def jsCapitalize (s : String) : String :=
  match s.data with
  | [] => ""
  | c :: cs => String.mk (c.toUpper :: cs.map Char.toLower)

/-- Case-insensitive `String.prototype.includes` (the code always lowercases
both sides before calling `includes`, so we expose the plain version). -/
def jsIncludes (s sub : String) : Bool :=
  decide (List.IsInfix sub.data s.data)

/-- `['Sun','Mon','Tue','Wed','Thu','Fri','Sat']` from `isWithinSchedule`. -/
def dayNames : List String := ["Sun", "Mon", "Tue", "Wed", "Thu", "Fri", "Sat"]

/-- Local wall-clock instant handed to the schedule evaluator: weekday index
as produced by `Date.prototype.getDay` plus hours and minutes. -/
structure NowTime where
  dayIdx : Nat
  hour : Nat
  minute : Nat
  deriving Repr, DecidableEq

/-- A `{label?, url, isButton?}` entry of an automation's `links` list. -/
structure Link where
  label : Option String
  url : String
  isButton : Bool
  deriving Repr, DecidableEq

/-- The recognized keys of an automation's free-form `config` blob, as read
by the webhook handler. `none` models an absent key. -/
structure AutomationConfig where
  keywords : Option (List String)
  triggerWords : Option (List String)
  messageTemplate : Option String
  mediaId : Option String
  links : List Link
  delaySeconds : Nat
  scheduleEnabled : Bool
  scheduleDays : Option (List String)
  scheduleStartTime : Option String
  scheduleEndTime : Option String
  commentReplyEnabled : Bool
  commentReplyTemplate : Option String
  deriving Repr, DecidableEq

/-- `'HH:MM'.split(':').map(Number)` folded into the `startH * 100 +
(startM || 0)` integer scale of `isWithinSchedule`; `none` is `NaN`. -/
def hhmm (s : String) : Option Nat :=
  match splitOnChar ':' s.data with
  | [] => none
  | h :: rest =>
    match jsNum (String.mk h) with
    | none => none
    | some hv =>
      let mv : Nat :=
        match rest with
        | [] => 0
        | m :: _ => (jsNum (String.mk m)).getD 0
      some (hv * 100 + mv)

/-- `isWithinSchedule` from src/server/routes.ts lines 30-65, with the
implicit `new Date()` made an explicit `now` argument. -/
def isWithinSchedule (config : AutomationConfig) (now : NowTime) : Bool :=
  if !config.scheduleEnabled then true
  else
    let currentDay := dayNames.getD now.dayIdx ""
    let days := config.scheduleDays.getD []
    if days.length > 0 &&
        !((days.map jsCapitalize).contains currentDay) then false
    else if truthyS config.scheduleStartTime && truthyS config.scheduleEndTime then
      let currentTime : Option Nat := some (now.hour * 100 + now.minute)
      let startTime := hhmm (config.scheduleStartTime.getD "")
      let endTime := hhmm (config.scheduleEndTime.getD "")
      if jsLe startTime endTime then
        if jsLt currentTime startTime || jsGt currentTime endTime then false
        else true
      else
        if jsLt currentTime startTime && jsGt currentTime endTime then false
        else true
    else true

/-- One pass of `result.replace(new RegExp('\x7bkey\x7d', 'gi'), value)`:
left-to-right, non-overlapping, case-insensitive replacement on the
character list. Each step consumes at least one character, so running it
with the character count as structural fuel is exact. The unescaped
pattern is modelled as the literal brace-wrapped key and the value is
spliced verbatim; that is faithful whenever the key carries no regex
metacharacter and the value no dollar pattern, and `regexSafeKey` /
`dollarFreeVal` below scope the general theorems to that region. -/
def replaceCIGo (pat val : List Char) : Nat → List Char → List Char
  | _, [] => []
  | 0, s => s
  | fuel + 1, c :: rest =>
    if ((c :: rest).take pat.length).map Char.toLower = pat.map Char.toLower then
      val ++ replaceCIGo pat val fuel (rest.drop (pat.length - 1))
    else
      c :: replaceCIGo pat val fuel rest

/-- Case-insensitive global replacement of `pat` by `val` in `s`. -/
def replaceAllCI (s pat val : String) : String :=
  String.mk (replaceCIGo pat.data val.data s.data.length s.data)

/-- `replaceTemplateVariables` from src/server/routes.ts lines 8-14: fold
over the mapping's entries in order, each replacing every case-insensitive
`\x7bname\x7d` occurrence by the entry's value. -/
def replaceTemplateVariables (template : String) (vars : List (String × String)) : String :=
  vars.foldl
    (fun result kv => replaceAllCI result ("\x7b" ++ kv.1 ++ "\x7d") kv.2)
    template

/-- `formatLinksAsButtons` from src/server/routes.ts lines 16-28. -/
def formatLinksAsButtons (links : List Link) : String :=
  if links.length = 0 then ""
  else
    jsTrim (links.foldl
      (fun acc link =>
        match link.label with
        | some lab =>
          if lab ≠ "" then acc ++ "🔗 " ++ lab ++ "\n👉 " ++ link.url ++ "\n\n"
          else acc ++ "👉 " ++ link.url ++ "\n\n"
        | none => acc ++ "👉 " ++ link.url ++ "\n\n")
      "\n\n")

/-- `str.substring(a, b)` for `a ≤ b` (the only way the code calls it). -/
def jsSubstring (s : String) (a b : Nat) : String :=
  String.mk ((s.data.drop a).take (b - a))

/-- Remove the first occurrence of a character (JS `replace('@', '')`). -/
def removeFirstChar (c : Char) : List Char → List Char
  | [] => []
  | x :: xs => if x = c then xs else x :: removeFirstChar c xs

/-- An `instagram_accounts` row, restricted to the columns the pipeline
reads. -/
structure Account where
  id : String
  userId : String
  username : String
  instagramUserId : String
  igBusinessAccountId : Option String
  accessToken : Option String
  pageAccessToken : Option String
  isActive : Bool
  deriving Repr, DecidableEq

/-- The `stats` blob of an automation. -/
structure Stats where
  totalReplies : Nat
  lastTriggered : Option String
  deriving Repr, DecidableEq

/-- An `automations` row, restricted to the columns the pipeline reads. -/
structure Automation where
  id : String
  instagramAccountId : String
  type : String
  title : String
  isActive : Bool
  config : AutomationConfig
  stats : Stats
  deriving Repr, DecidableEq

/-- A `processed_comments` row: the idempotency ledger entry for one
(account, external comment id, automation id) triple. -/
structure ProcessedComment where
  instagramAccountId : String
  commentId : String
  automationId : String
  action : String
  deriving Repr, DecidableEq

/-- An `activity_log` row as created by the pipeline. -/
structure ActivityEntry where
  userId : String
  automationId : Option String
  action : String
  targetUsername : String
  details : String
  deriving Repr, DecidableEq

/-- A `follower_tracking` row, restricted to the columns the pipeline
reads. -/
structure FollowerTracking where
  id : String
  instagramAccountId : String
  followerInstagramId : String
  followerUsername : Option String
  isFollowing : Bool
  deriving Repr, DecidableEq

/-- A `scheduled_messages` row as read by the scheduled message
processor. -/
structure ScheduledMessage where
  id : String
  userId : String
  instagramAccountId : String
  recipientInstagramId : String
  recipientUsername : Option String
  message : String
  links : List Link
  scheduledFor : Nat
  status : String
  error : Option String
  note : Option String
  deriving Repr, DecidableEq

/-- The persistent store plus the process-local webhook dedup cache.
`nextId` feeds database-generated row ids. -/
structure St where
  accounts : List Account
  automations : List Automation
  processedComments : List ProcessedComment
  activityLogs : List ActivityEntry
  followers : List FollowerTracking
  scheduledMessages : List ScheduledMessage
  webhookCache : List (String × Nat)
  nextId : Nat
  deriving Repr, DecidableEq

/-! ### Storage operations (DatabaseStorage, src/server/storage.ts) -/

/-- `getInstagramAccount`. -/
def getInstagramAccount (st : St) (id : String) : Option Account :=
  st.accounts.find? (fun a => a.id = id)

/-- `getInstagramAccountByInstagramUserId`. -/
def getInstagramAccountByInstagramUserId (st : St) (igId : String) : Option Account :=
  st.accounts.find? (fun a => a.instagramUserId = igId)

/-- `getInstagramAccountByBusinessId`. -/
def getInstagramAccountByBusinessId (st : St) (bizId : String) : Option Account :=
  st.accounts.find? (fun a => a.igBusinessAccountId = some bizId)

/-- `getAllActiveAutomations`. -/
def getAllActiveAutomations (st : St) : List Automation :=
  st.automations.filter (fun a => a.isActive)

/-- `getAutomationsByInstagramAccountId` (the stored list is taken to be in
the store's return order). -/
def getAutomationsByInstagramAccountId (st : St) (accountId : String) : List Automation :=
  st.automations.filter (fun a => a.instagramAccountId = accountId)

/-- `updateInstagramAccountBusinessId`. -/
def updateInstagramAccountBusinessId (st : St) (id bizId : String) : St :=
  let accounts := st.accounts.map
    (fun a => if a.id = id then { a with igBusinessAccountId := some bizId } else a)
  { st with accounts := accounts }

/-- `updateAutomation` as called by the pipeline (a stats-only update). -/
def updateAutomationStats (st : St) (id : String) (stats : Stats) : St :=
  let automations := st.automations.map
    (fun a => if a.id = id then { a with stats := stats } else a)
  { st with automations := automations }

/-- `createActivityLog`. -/
def createActivityLog (st : St) (e : ActivityEntry) : St :=
  { st with activityLogs := st.activityLogs ++ [e] }

/-- `getFollowerTracking`. -/
def getFollowerTracking (st : St) (accountId followerId : String) : Option FollowerTracking :=
  st.followers.find?
    (fun f => f.instagramAccountId = accountId ∧ f.followerInstagramId = followerId)

/-- `getFollowerByUsername`: lowercases, strips one `@`, and compares
case-insensitively against the stored username (SQL `LOWER(...) = ...`,
false on NULL). -/
def getFollowerByUsername (st : St) (accountId username : String) : Option FollowerTracking :=
  let cleanUsername := String.mk (removeFirstChar '@' (jsToLower username).data)
  st.followers.find?
    (fun f => decide (f.instagramAccountId = accountId) &&
      match f.followerUsername with
      | some u => decide (jsToLower u = cleanUsername)
      | none => false)

/-- `createFollowerTracking` (the database generates the row id). -/
def createFollowerTracking (st : St) (accountId followerId : String)
    (username : Option String) (isFollowing : Bool) : St :=
  { st with
    followers := st.followers ++
      [{ id := toString st.nextId, instagramAccountId := accountId,
         followerInstagramId := followerId, followerUsername := username,
         isFollowing := isFollowing }],
    nextId := st.nextId + 1 }

/-- `updateFollowerTracking` as called by the pipeline (username-only
update). -/
def updateFollowerTrackingUsername (st : St) (id username : String) : St :=
  let followers := st.followers.map
    (fun f => if f.id = id then { f with followerUsername := some username } else f)
  { st with followers := followers }

/-- `isCommentProcessed` (src/server/storage.ts lines 526-537). -/
def isCommentProcessed (st : St) (accountId commentId automationId : String) : Bool :=
  (st.processedComments.find?
    (fun p => p.instagramAccountId = accountId ∧ p.commentId = commentId ∧
      p.automationId = automationId)).isSome

/-- `markCommentProcessed` (src/server/storage.ts lines 539-561): returns
the existing row unchanged when one exists for the key, otherwise inserts
a new row carrying `action`. -/
def markCommentProcessed (st : St) (accountId commentId automationId action : String) :
    ProcessedComment × St :=
  match st.processedComments.find?
      (fun p => p.instagramAccountId = accountId ∧ p.commentId = commentId ∧
        p.automationId = automationId) with
  | some existing => (existing, st)
  | none =>
    let created : ProcessedComment :=
      { instagramAccountId := accountId, commentId := commentId,
        automationId := automationId, action := action }
    (created, { st with processedComments := st.processedComments ++ [created] })

/-! ### External messaging API (src/server/lib/instagram.ts) -/

/-- A call-to-action button of a rich DM payload. -/
structure DMButton where
  url : String
  title : String
  deriving Repr, DecidableEq

/-- Which messaging endpoint a DM send is addressed to. -/
inductive Endpoint where
  | fbBusiness (id : String)
  | igMe
  deriving Repr, DecidableEq

/-- The body shape of a DM send. -/
inductive Payload where
  | text (msg : String)
  | generic (title : String) (subtitle : Option String) (buttons : List DMButton)
  deriving Repr, DecidableEq

/-- One outbound HTTP call to the messaging provider. -/
inductive ApiCall where
  | igPrivateReply (token commentId message : String)
  | fbPrivateReply (token businessId commentId message : String)
  | igCommentReply (token commentId message : String)
  | fbCommentReply (token commentId message : String)
  | dmSend (endpoint : Endpoint) (token recipientId : String) (payload : Payload)
  deriving Repr, DecidableEq

/-- The provider's behaviour: `none` means the call succeeds, `some s`
means it fails with HTTP status `s`. -/
def Oracle : Type := ApiCall → Option Nat

/-- Outcome of a delivery helper: the exception it finally threw (if any)
plus the calls it attempted, in order. -/
instance : DecidableEq (Except Nat Unit) := fun a b =>
  match a, b with
  | Except.ok (), Except.ok () => isTrue rfl
  | Except.error x, Except.error y =>
    if h : x = y then isTrue (by rw [h])
    else isFalse (fun hh => by cases hh; exact h rfl)
  | Except.ok _, Except.error _ => isFalse (fun hh => by cases hh)
  | Except.error _, Except.ok _ => isFalse (fun hh => by cases hh)

structure CallResult where
  result : Except Nat Unit
  calls : List ApiCall
  deriving Repr, DecidableEq

/-- `sendPrivateReply` (src/server/lib/instagram.ts lines 491-556): try the
Instagram Graph endpoint addressed by comment id, fall back to the Facebook
Graph endpoint addressed by comment id, rethrow the second failure. -/
def sendPrivateReply (o : Oracle) (accessToken igBusinessAccountId commentId message : String) :
    CallResult :=
  let c1 := ApiCall.igPrivateReply accessToken commentId message
  match o c1 with
  | none => ⟨Except.ok (), [c1]⟩
  | some _ =>
    let c2 := ApiCall.fbPrivateReply accessToken igBusinessAccountId commentId message
    match o c2 with
    | none => ⟨Except.ok (), [c1, c2]⟩
    | some e2 => ⟨Except.error e2, [c1, c2]⟩

/-- `replyToComment` (src/server/lib/instagram.ts lines 573-622): post to
the Instagram replies endpoint; on a 400 failure retry once against the
Facebook host, rethrowing that failure; otherwise rethrow. -/
def replyToComment (o : Oracle) (accessToken commentId message : String) : CallResult :=
  let c1 := ApiCall.igCommentReply accessToken commentId message
  match o c1 with
  | none => ⟨Except.ok (), [c1]⟩
  | some e1 =>
    if e1 = 400 then
      let c2 := ApiCall.fbCommentReply accessToken commentId message
      match o c2 with
      | none => ⟨Except.ok (), [c1, c2]⟩
      | some e2 => ⟨Except.error e2, [c1, c2]⟩
    else ⟨Except.error e1, [c1]⟩

/-- The fallback chain of `sendDirectMessage` as a function of the three
possible attempt outcomes: primary (`r1`), the `/me` endpoint fallback
(`r2`, tried only when a business id is known but no page token), and the
text-only fallback (`r3`, tried only when buttons were present). When
everything fails the original error is rethrown. -/
def sendDirectMessageCore (r1 r2 r3 : Option Nat) (c1 c2 c3 : ApiCall)
    (endpointFallback buttonsPresent : Bool) : CallResult :=
  match r1 with
  | none => ⟨Except.ok (), [c1]⟩
  | some e1 =>
    if endpointFallback then
      match r2 with
      | none => ⟨Except.ok (), [c1, c2]⟩
      | some _ =>
        if buttonsPresent then
          match r3 with
          | none => ⟨Except.ok (), [c1, c2, c3]⟩
          | some _ => ⟨Except.error e1, [c1, c2, c3]⟩
        else ⟨Except.error e1, [c1, c2]⟩
    else
      if buttonsPresent then
        match r3 with
        | none => ⟨Except.ok (), [c1, c3]⟩
        | some _ => ⟨Except.error e1, [c1, c3]⟩
      else ⟨Except.error e1, [c1]⟩

def sendDirectMessage (o : Oracle) (accessToken : String) (recipientId message : String)
    (buttons : List DMButton) (igBusinessAccountId pageAccessToken : Option String) :
    CallResult :=
  let tokenToUse := if truthyS pageAccessToken then pageAccessToken.getD "" else accessToken
  let payload : Payload :=
    if buttons.length > 0 then
      Payload.generic (jsSubstring message 0 80)
        (if message.length > 80 then some (jsSubstring message 80 160) else none)
        ((buttons.take 3).map (fun b => { b with title := jsSubstring b.title 0 20 }))
    else Payload.text message
  let endpoint : Endpoint :=
    if truthyS igBusinessAccountId then Endpoint.fbBusiness (igBusinessAccountId.getD "")
    else Endpoint.igMe
  let c1 := ApiCall.dmSend endpoint tokenToUse recipientId payload
  let c2 := ApiCall.dmSend Endpoint.igMe accessToken recipientId (Payload.text message)
  let c3 := ApiCall.dmSend endpoint tokenToUse recipientId (Payload.text message)
  sendDirectMessageCore (o c1) (o c2) (o c3) c1 c2 c3
    (truthyS igBusinessAccountId && !truthyS pageAccessToken) (buttons.length > 0)

/-- `sendDirectMessageWithButtons` (src/server/lib/instagram.ts lines
411-473): collect the `isButton` links as buttons; if any, delegate with
buttons, otherwise append the links to the text and delegate without. -/
def sendDirectMessageWithButtons (o : Oracle) (accessToken : String)
    (recipientId message : String) (links : List Link)
    (igBusinessAccountId pageAccessToken : Option String) : CallResult :=
  let buttons : List DMButton :=
    (links.filter (fun l => l.isButton)).map
      (fun l => { url := l.url,
                  title := if truthyS l.label then l.label.getD "" else "Open link" })
  if buttons.length > 0 then
    sendDirectMessage o accessToken recipientId message buttons
      igBusinessAccountId pageAccessToken
  else
    let fullMessage :=
      if links.length > 0 then
        jsTrim (links.foldl
          (fun acc l =>
            if truthyS l.label then acc ++ (l.label.getD "") ++ "\n" ++ l.url ++ "\n\n"
            else acc ++ l.url ++ "\n\n")
          (message ++ "\n\n"))
      else jsTrim message
    sendDirectMessage o accessToken recipientId fullMessage [] igBusinessAccountId pageAccessToken

/-! ### Webhook payload shapes -/

/-- The `value` of a `comments` change: the inbound comment. -/
structure CommentData where
  id : String
  text : Option String
  fromUsername : Option String
  fromId : Option String
  mediaId : Option String
  deriving Repr, DecidableEq

/-- One element of `entry.changes`. -/
structure Change where
  field : String
  value : CommentData
  deriving Repr, DecidableEq

/-- One element of `entry.messaging`: a DM and/or a story reaction. -/
structure MessagingEvent where
  senderId : Option String
  messageText : Option String
  reaction : Bool
  deriving Repr, DecidableEq

/-- One element of `body.entry`. `none` models an absent / non-array
field. -/
structure Entry where
  id : String
  changes : Option (List Change)
  messaging : Option (List MessagingEvent)
  deriving Repr, DecidableEq

/-- The webhook POST body after JSON parsing. -/
structure WebhookBody where
  object : String
  entry : Option (List Entry)
  deriving Repr, DecidableEq

/-- `WEBHOOK_CACHE_TTL` (src/server/routes.ts line 73). -/
def WEBHOOK_CACHE_TTL : Nat := 60000

/-- `webhookProcessingCache.set(key, now)` on the assoc-list model of the
in-memory map. -/
def cacheSet (cache : List (String × Nat)) (key : String) (clock : Nat) :
    List (String × Nat) :=
  if (cache.find? (fun kv => kv.1 = key)).isSome then
    cache.map (fun kv => if kv.1 = key then (key, clock) else kv)
  else cache ++ [(key, clock)]

/-- `isWebhookDuplicate` (src/server/routes.ts lines 75-95), with
`Date.now()` made an explicit `clock` argument: opportunistic TTL cleanup
past 1000 entries, then the duplicate test (a recorded time of `0` is
falsy in JS and does not count), recording the key when not a
duplicate. -/
def isWebhookDuplicate (clock : Nat) (key : String) (cache : List (String × Nat)) :
    Bool × List (String × Nat) :=
  let lastProcessed := (cache.find? (fun kv => kv.1 = key)).map (fun kv => kv.2)
  let cache1 :=
    if cache.length > 1000 then
      cache.filter (fun kv => !(clock - kv.2 > WEBHOOK_CACHE_TTL))
    else cache
  match lastProcessed with
  | some v =>
    if v ≠ 0 ∧ clock - v < WEBHOOK_CACHE_TTL then (true, cache1)
    else (false, cacheSet cache1 key clock)
  | none => (false, cacheSet cache1 key clock)

/-- `account.igBusinessAccountId || undefined` / `account.pageAccessToken
|| undefined` at the call sites of the DM helpers. -/
def optTruthy (o : Option String) : Option String :=
  if truthyS o then o else none

/-- Run a per-item state transformer over a list, threading the store and
concatenating the attempted calls (the `for ... of` loops). -/
def runList {α : Type} (f : α → St → St × List ApiCall) : List α → St → St × List ApiCall
  | [], st => (st, [])
  | x :: rest, st =>
    let r1 := f x st
    let r2 := runList f rest r1.1
    (r2.1, r1.2 ++ r2.2)

/-! ### Comment branch of the webhook handler
    (src/server/routes.ts lines 886-1111) -/

/-- The last-resort account resolution: scan all active automations of type
`comment_to_dm` whose media filter is absent or matches, returning the
first automation's account that resolves (lines 912-927). -/
def findAccountByMediaAux (st : St) (mediaId : String) : List Automation → Option Account
  | [] => none
  | a :: rest =>
    if a.type = "comment_to_dm" ∧
        (¬truthyS a.config.mediaId ∨ a.config.mediaId = some mediaId) then
      match getInstagramAccount st a.instagramAccountId with
      | some acc => some acc
      | none => findAccountByMediaAux st mediaId rest
    else findAccountByMediaAux st mediaId rest

/-- Account resolution by media id over `getAllActiveAutomations`. -/
def findAccountByMedia (st : St) (mediaId : String) : Option Account :=
  findAccountByMediaAux st mediaId (getAllActiveAutomations st)

/-- The commenter auto-tracking block (lines 985-1007): create a tracking
row for an unknown commenter, or fill in a missing username. -/
def trackCommenter (st : St) (accountId : String) (fromId : Option String)
    (commenterUsername : String) : St :=
  match fromId with
  | some uid =>
    if uid ≠ "" then
      match getFollowerTracking st accountId uid with
      | none => createFollowerTracking st accountId uid (some commenterUsername) false
      | some existing =>
        if ¬truthyS existing.followerUsername ∧ commenterUsername ≠ "" then
          updateFollowerTrackingUsername st existing.id commenterUsername
        else st
    else st
  | none => st

/-- The body of the `for (const automation of activeCommentAutomations)`
loop (lines 947-1104): schedule gate, media filter, keyword containment,
ledger check, commenter auto-tracking, template rendering, provisional
`markCommentProcessed`, delivery with caught errors, stats, final
`markCommentProcessed`, activity log. -/
def processCommentAutomation (o : Oracle) (now : NowTime) (clock : Nat)
    (igUserId : String) (commentData : CommentData) (account : Account)
    (automation : Automation) (st : St) : St × List ApiCall :=
  let config := automation.config
  let keywords := config.keywords.getD []
  let messageTemplate := config.messageTemplate.getD ""
  let targetMediaId := config.mediaId
  if ¬isWithinSchedule config now then (st, [])
  else if truthyS targetMediaId ∧ commentData.mediaId ≠ some (targetMediaId.getD "") then
    (st, [])
  else
    let commentText := jsToLower (commentData.text.getD "")
    match keywords.find? (fun kw => jsIncludes commentText (jsToLower kw)) with
    | none => (st, [])
    | some matchedKeyword =>
      if matchedKeyword = "" then (st, [])
      else if isCommentProcessed st account.id commentData.id automation.id then (st, [])
      else
        let commenterUsername :=
          if truthyS commentData.fromUsername then commentData.fromUsername.getD ""
          else "friend"
        let st1 := trackCommenter st account.id commentData.fromId commenterUsername
        let templateVars := [("username", commenterUsername), ("keyword", matchedKeyword)]
        let processedMessage0 := replaceTemplateVariables messageTemplate templateVars
        let processedMessage :=
          if config.links.length > 0 then processedMessage0 ++ formatLinksAsButtons config.links
          else processedMessage0
        let st2 := (markCommentProcessed st1 account.id commentData.id automation.id "processing").2
        if ¬truthyS account.accessToken then (st2, [])
        else
          let token := account.accessToken.getD ""
          let igBusinessId :=
            if truthyS account.igBusinessAccountId then account.igBusinessAccountId.getD ""
            else igUserId
          let pr := sendPrivateReply o token igBusinessId commentData.id processedMessage
          let dmSent := match pr.result with | Except.ok _ => true | Except.error _ => false
          let crCalls :=
            if config.commentReplyEnabled ∧ truthyS config.commentReplyTemplate then
              (replyToComment o token commentData.id
                (replaceTemplateVariables (config.commentReplyTemplate.getD "") templateVars)).calls
            else []
          let st3 := updateAutomationStats st2 automation.id
            { totalReplies := automation.stats.totalReplies + 1,
              lastTriggered := some (toString clock) }
          let st4 := (markCommentProcessed st3 account.id commentData.id automation.id
            (if dmSent then "dm_sent" else "comment_reply")).2
          let st5 := createActivityLog st4
            { userId := account.userId, automationId := some automation.id,
              action := if dmSent then "dm_sent" else "comment_reply_sent",
              targetUsername := commenterUsername,
              details := "Sent " ++ (if dmSent then "DM" else "comment reply") ++
                " for keyword \"" ++ matchedKeyword ++ "\"" }
          (st5, pr.calls ++ crCalls)

/-- One `comments` change (lines 891-1104): webhook-level dedup, account
resolution (business id, raw user id, media scan), business-id self-heal,
then the automation loop. -/
def processCommentChange (o : Oracle) (now : NowTime) (clock : Nat)
    (igUserId : String) (commentData : CommentData) (st : St) : St × List ApiCall :=
  let dedupKey := "comment:" ++ commentData.id
  let dup := isWebhookDuplicate clock dedupKey st.webhookCache
  let st0 := { st with webhookCache := dup.2 }
  if dup.1 then (st0, [])
  else
    let account1 :=
      match getInstagramAccountByBusinessId st0 igUserId with
      | some a => some a
      | none => getInstagramAccountByInstagramUserId st0 igUserId
    let account2 :=
      match account1 with
      | some a => some a
      | none =>
        match commentData.mediaId with
        | some mid => if mid ≠ "" then findAccountByMedia st0 mid else none
        | none => none
    match account2 with
    | none => (st0, [])
    | some account =>
      let st1 :=
        if ¬truthyS account.igBusinessAccountId then
          updateInstagramAccountBusinessId st0 account.id igUserId
        else st0
      let activeCommentAutomations :=
        (getAutomationsByInstagramAccountId st1 account.id).filter
          (fun a => a.isActive ∧ a.type = "comment_to_dm")
      runList (processCommentAutomation o now clock igUserId commentData account)
        activeCommentAutomations st1

/-! ### Messaging branch of the webhook handler
    (src/server/routes.ts lines 1114-1312) -/

/-- `config?.keywords || config?.triggerWords || []` of the DM automation
loop: an empty `keywords` array is truthy in JS, so it does not fall
through to `triggerWords`. -/
def dmTriggerWords (config : AutomationConfig) : List String :=
  match config.keywords with
  | some l => l
  | none => config.triggerWords.getD []

/-- The body of the DM automation loop (lines 1141-1224): schedule gate,
trigger-word containment (empty list is match-all), non-empty template
gate, delivery with per-automation catch, stats and activity log on
success only. -/
def processDmAutomation (o : Oracle) (now : NowTime) (clock : Nat)
    (senderId messageText : String) (account : Account)
    (automation : Automation) (st : St) : St × List ApiCall :=
  let config := automation.config
  let triggerWords := dmTriggerWords config
  let messageTemplate := config.messageTemplate.getD ""
  let links := config.links
  if ¬isWithinSchedule config now then (st, [])
  else
    let messageTextLower := jsToLower messageText
    let matchedKeyword := triggerWords.find? (fun tw => jsIncludes messageTextLower (jsToLower tw))
    let keywordMatch : Bool :=
      (triggerWords.length == 0) ||
        (match matchedKeyword with | some tw => tw ≠ "" | none => false)
    if keywordMatch ∧ messageTemplate ≠ "" then
      let templateVars := [("username", senderId), ("keyword", matchedKeyword.getD "")]
      let replyMessage := replaceTemplateVariables messageTemplate templateVars
      let hasButtonLinks := links.any (fun l => l.isButton)
      let r :=
        if hasButtonLinks then
          sendDirectMessageWithButtons o (account.accessToken.getD "") senderId
            replyMessage links (optTruthy account.igBusinessAccountId)
            (optTruthy account.pageAccessToken)
        else
          let fullMessage :=
            if links.length > 0 then replyMessage ++ formatLinksAsButtons links
            else replyMessage
          sendDirectMessage o (account.accessToken.getD "") senderId fullMessage []
            (optTruthy account.igBusinessAccountId) (optTruthy account.pageAccessToken)
      match r.result with
      | Except.error _ => (st, r.calls)
      | Except.ok _ =>
        let st1 := updateAutomationStats st automation.id
          { totalReplies := automation.stats.totalReplies + 1,
            lastTriggered := some (toString clock) }
        let st2 := createActivityLog st1
          { userId := account.userId, automationId := some automation.id,
            action := "dm_auto_reply", targetUsername := senderId,
            details := "Auto-replied to DM: \"" ++ jsSubstring messageText 0 50 ++ "...\"" }
        (st2, r.calls)
    else (st, [])

/-- The body of the story-reaction automation loop (lines 1239-1308). -/
def processStoryAutomation (o : Oracle) (now : NowTime) (clock : Nat)
    (senderId : String) (account : Account) (automation : Automation) (st : St) :
    St × List ApiCall :=
  let config := automation.config
  let messageTemplate := config.messageTemplate.getD ""
  let links := config.links
  if ¬isWithinSchedule config now then (st, [])
  else if messageTemplate ≠ "" then
    let replyMessage := replaceTemplateVariables messageTemplate [("username", senderId)]
    let hasButtonLinks := links.any (fun l => l.isButton)
    let r :=
      if hasButtonLinks then
        sendDirectMessageWithButtons o (account.accessToken.getD "") senderId
          replyMessage links (optTruthy account.igBusinessAccountId)
          (optTruthy account.pageAccessToken)
      else
        let fullMessage :=
          if links.length > 0 then replyMessage ++ formatLinksAsButtons links
          else replyMessage
        sendDirectMessage o (account.accessToken.getD "") senderId fullMessage []
          (optTruthy account.igBusinessAccountId) (optTruthy account.pageAccessToken)
    match r.result with
    | Except.error _ => (st, r.calls)
    | Except.ok _ =>
      let st1 := updateAutomationStats st automation.id
        { totalReplies := automation.stats.totalReplies + 1,
          lastTriggered := some (toString clock) }
      let st2 := createActivityLog st1
        { userId := account.userId, automationId := some automation.id,
          action := "story_reaction_reply", targetUsername := senderId,
          details := "Replied to story reaction" }
      (st2, r.calls)
  else (st, [])

/-- One `messaging` sub-event (lines 1115-1311): the DM part (sender and
text both present), then the story-reaction part. -/
def processMessagingEvent (o : Oracle) (now : NowTime) (clock : Nat)
    (igUserId : String) (ev : MessagingEvent) (st : St) : St × List ApiCall :=
  let dmPart :=
    if truthyS ev.senderId ∧ truthyS ev.messageText then
      match getInstagramAccountByBusinessId st igUserId with
      | none => (st, [])
      | some account =>
        let activeDmAutomations :=
          (getAutomationsByInstagramAccountId st account.id).filter
            (fun a => a.isActive ∧ (a.type = "auto_dm_reply" ∨ a.type = "mention_reply"))
        runList
          (processDmAutomation o now clock (ev.senderId.getD "") (ev.messageText.getD "")
            account)
          activeDmAutomations st
    else (st, [])
  if truthyS ev.senderId ∧ ev.reaction then
    match getInstagramAccountByBusinessId dmPart.1 igUserId with
    | none => dmPart
    | some account =>
      let storyAutomations :=
        (getAutomationsByInstagramAccountId dmPart.1 account.id).filter
          (fun a => a.isActive ∧ a.type = "story_reaction")
      let r := runList
        (processStoryAutomation o now clock (ev.senderId.getD "") account)
        storyAutomations dmPart.1
      (r.1, dmPart.2 ++ r.2)
  else dmPart

/-- One element of `body.entry` (lines 883-1313): its `changes` (only the
`comments` field does anything) then its `messaging` events. -/
def processEntry (o : Oracle) (now : NowTime) (clock : Nat) (entry : Entry)
    (st : St) : St × List ApiCall :=
  let changesPart :=
    match entry.changes with
    | some changes =>
      runList
        (fun change st =>
          if change.field = "comments" then
            processCommentChange o now clock entry.id change.value st
          else (st, []))
        changes st
    | none => (st, [])
  match entry.messaging with
  | some evs =>
    let r := runList (processMessagingEvent o now clock entry.id) evs changesPart.1
    (r.1, changesPart.2 ++ r.2)
  | none => changesPart

/-- The whole webhook POST handler (lines 877-1321), returning the HTTP
status it responds with. A body of object `instagram` without an iterable
`entry` makes `for (const entry of body.entry)` throw, which the outer
catch turns into a 500; otherwise every entry is processed and the
response is 200. -/
def processWebhook (o : Oracle) (now : NowTime) (clock : Nat) (body : WebhookBody)
    (st : St) : Nat × St × List ApiCall :=
  if body.object = "instagram" then
    match body.entry with
    | none => (500, st, [])
    | some entries =>
      let r := runList (processEntry o now clock) entries st
      (200, r.1, r.2)
  else (200, st, [])

/-! ### Scheduled message processor (the `setInterval` sweep of the routes
revision, lines 1289-1370). The storage methods it calls
(`getPendingScheduledMessages`, `markScheduledMessageProcessed`,
`markScheduledMessageFailed`, `updateScheduledMessage`) have no
implementation under src/server/storage.ts, so they are modelled from the
spec. -/

/-- Modelled from the spec: `getPendingScheduledMessages` (missing from
src/server/storage.ts) — "Fetch all scheduled messages whose due timestamp
has passed and whose status is still pending." -/
def getPendingScheduledMessages (st : St) (clock : Nat) : List ScheduledMessage :=
  st.scheduledMessages.filter
    (fun m => m.status = "pending" ∧ m.scheduledFor ≤ clock)

/-- Modelled from the spec: `markScheduledMessageProcessed` (missing from
src/server/storage.ts) — the pending → sent transition. -/
def markScheduledMessageProcessed (st : St) (id : String) : St :=
  let scheduledMessages := st.scheduledMessages.map
    (fun m => if m.id = id then { m with status := "sent" } else m)
  { st with scheduledMessages := scheduledMessages }

/-- Modelled from the spec: `markScheduledMessageFailed` (missing from
src/server/storage.ts) — the pending → failed transition, recording the
error text. -/
def markScheduledMessageFailed (st : St) (id : String) (e : String) : St :=
  let scheduledMessages := st.scheduledMessages.map
    (fun m => if m.id = id then { m with status := "failed", error := some e } else m)
  { st with scheduledMessages := scheduledMessages }

/-- Modelled from the spec: `updateScheduledMessage` as called by the
runner (missing from src/server/storage.ts) — persist the resolved
recipient id. -/
def updateScheduledMessageRecipient (st : St) (id rid : String) : St :=
  let scheduledMessages := st.scheduledMessages.map
    (fun m => if m.id = id then { m with recipientInstagramId := rid } else m)
  { st with scheduledMessages := scheduledMessages }

/-- The delivery part of one scheduled message (runner lines 1325-1359):
button-aware send via the positional call forms (no business id, no page
token), then mark sent plus activity log on success, mark failed on a
caught exception. -/
def deliverScheduledMessage (o : Oracle) (msg : ScheduledMessage) (account : Account)
    (recipientId : String) (st : St) : St × List ApiCall :=
  let links := msg.links
  let hasButtonLinks := links.any (fun l => l.isButton)
  let r :=
    if hasButtonLinks then
      sendDirectMessageWithButtons o (account.accessToken.getD "") recipientId
        msg.message links none none
    else
      let fullMessage :=
        if links.length > 0 then
          links.foldl
            (fun acc l =>
              if truthyS l.label then acc ++ (l.label.getD "") ++ "\n" ++ l.url ++ "\n\n"
              else acc ++ l.url ++ "\n\n")
            (msg.message ++ "\n\n")
        else msg.message
      sendDirectMessage o (account.accessToken.getD "") recipientId (jsTrim fullMessage) []
        none none
  match r.result with
  | Except.error e =>
    (markScheduledMessageFailed st msg.id (toString e), r.calls)
  | Except.ok _ =>
    let st1 := markScheduledMessageProcessed st msg.id
    let st2 := createActivityLog st1
      { userId := msg.userId, automationId := none,
        action := "scheduled_dm_sent",
        targetUsername :=
          if truthyS msg.recipientUsername then msg.recipientUsername.getD ""
          else recipientId,
        details :=
          if truthyS msg.note then msg.note.getD ""
          else "Scheduled message sent: \"" ++ jsSubstring msg.message 0 50 ++ "...\"" }
    (st2, r.calls)

/-- One message of the runner loop (lines 1293-1365): account resolution,
`pending:<username>` recipient resolution through the follower tracking
table, then delivery. Every path ends in a terminal mark. -/
def processScheduledMessage (o : Oracle) (msg : ScheduledMessage) (st : St) :
    St × List ApiCall :=
  match getInstagramAccount st msg.instagramAccountId with
  | none => (markScheduledMessageFailed st msg.id "Instagram account not found", [])
  | some account =>
    let rid0 := msg.recipientInstagramId
    if jsStartsWith rid0 "pending:" then
      let pendingUsername := String.mk (rid0.data.drop 8)
      match getFollowerByUsername st account.id pendingUsername with
      | some follower =>
        if follower.followerInstagramId ≠ "" then
          let rid := follower.followerInstagramId
          let st1 := updateScheduledMessageRecipient st msg.id rid
          deliverScheduledMessage o msg account rid st1
        else
          (markScheduledMessageFailed st msg.id
            ("Cannot send DM: User @" ++ pendingUsername ++
              " has not interacted with your account. They need to message you or comment on your posts first."), [])
      | none =>
        (markScheduledMessageFailed st msg.id
          ("Cannot send DM: User @" ++ pendingUsername ++
            " has not interacted with your account. They need to message you or comment on your posts first."), [])
    else deliverScheduledMessage o msg account rid0 st

/-- One tick of the scheduled message processor (lines 1289-1370). -/
def runnerTick (o : Oracle) (clock : Nat) (st : St) : St × List ApiCall :=
  runList (processScheduledMessage o) (getPendingScheduledMessages st clock) st

/-! ### Test fixtures -/

/-- A config whose only active gate is the time window. -/
def scheduleOnlyConfig (st en : String) : AutomationConfig :=
  { keywords := none, triggerWords := none, messageTemplate := none, mediaId := none,
    links := [], delaySeconds := 0, scheduleEnabled := true, scheduleDays := none,
    scheduleStartTime := some st, scheduleEndTime := some en,
    commentReplyEnabled := false, commentReplyTemplate := none }

/-! ### Claims -/

/-- C3: with scheduling enabled, no day restriction, and both boundaries
present as well-formed `HH:MM` strings, the evaluator is eligible iff the
current `HHMM` value lies in `[start, end]` when `start ≤ end`, and iff
`current ≥ start ∨ current ≤ end` when the window wraps midnight; together
with the spec's concrete cases for 22:00-06:00 and 09:00-17:00. -/
theorem schedule_window_characterization (config : AutomationConfig) (now : NowTime)
    (s e : String) (S E : Nat)
    (h1 : config.scheduleEnabled = true)
    (h2 : config.scheduleDays.getD [] = [])
    (h3 : config.scheduleStartTime = some s)
    (h4 : config.scheduleEndTime = some e)
    (h5 : s ≠ "") (h6 : e ≠ "")
    (h7 : hhmm s = some S) (h8 : hhmm e = some E) :
    (isWithinSchedule config now = true ↔
      (if S ≤ E then S ≤ now.hour * 100 + now.minute ∧ now.hour * 100 + now.minute ≤ E
       else S ≤ now.hour * 100 + now.minute ∨ now.hour * 100 + now.minute ≤ E)) ∧
    isWithinSchedule (scheduleOnlyConfig "22:00" "06:00") ⟨1, 23, 0⟩ = true ∧
    isWithinSchedule (scheduleOnlyConfig "22:00" "06:00") ⟨1, 0, 30⟩ = true ∧
    isWithinSchedule (scheduleOnlyConfig "22:00" "06:00") ⟨1, 5, 59⟩ = true ∧
    isWithinSchedule (scheduleOnlyConfig "22:00" "06:00") ⟨1, 10, 0⟩ = false ∧
    isWithinSchedule (scheduleOnlyConfig "22:00" "06:00") ⟨1, 21, 59⟩ = false ∧
    isWithinSchedule (scheduleOnlyConfig "09:00" "17:00") ⟨1, 9, 0⟩ = true ∧
    isWithinSchedule (scheduleOnlyConfig "09:00" "17:00") ⟨1, 17, 0⟩ = true ∧
    isWithinSchedule (scheduleOnlyConfig "09:00" "17:00") ⟨1, 8, 59⟩ = false ∧
    isWithinSchedule (scheduleOnlyConfig "09:00" "17:00") ⟨1, 17, 1⟩ = false := by
  refine ⟨?_, by decide, by decide, by decide, by decide, by decide, by decide,
    by decide, by decide, by decide⟩
  have hd : config.scheduleDays.getD [] = ([] : List String) := h2
  simp only [isWithinSchedule, h1, h3, h4, hd]
  simp only [truthyS, Option.getD_some, h7, h8, jsLe, jsLt, jsGt]
  simp [h5, h6]

/-- Witness for the schedule window characterization at the wraparound
window 22:00-06:00 observed at 23:00. -/
theorem schedule_window_characterization_witness :
    ((isWithinSchedule (scheduleOnlyConfig "22:00" "06:00") ⟨1, 23, 0⟩ = true ↔
      (if 2200 ≤ 600 then 2200 ≤ 23 * 100 + 0 ∧ 23 * 100 + 0 ≤ 600
       else 2200 ≤ 23 * 100 + 0 ∨ 23 * 100 + 0 ≤ 600)) ∧
    isWithinSchedule (scheduleOnlyConfig "22:00" "06:00") ⟨1, 23, 0⟩ = true ∧
    isWithinSchedule (scheduleOnlyConfig "22:00" "06:00") ⟨1, 0, 30⟩ = true ∧
    isWithinSchedule (scheduleOnlyConfig "22:00" "06:00") ⟨1, 5, 59⟩ = true ∧
    isWithinSchedule (scheduleOnlyConfig "22:00" "06:00") ⟨1, 10, 0⟩ = false ∧
    isWithinSchedule (scheduleOnlyConfig "22:00" "06:00") ⟨1, 21, 59⟩ = false ∧
    isWithinSchedule (scheduleOnlyConfig "09:00" "17:00") ⟨1, 9, 0⟩ = true ∧
    isWithinSchedule (scheduleOnlyConfig "09:00" "17:00") ⟨1, 17, 0⟩ = true ∧
    isWithinSchedule (scheduleOnlyConfig "09:00" "17:00") ⟨1, 8, 59⟩ = false ∧
    isWithinSchedule (scheduleOnlyConfig "09:00" "17:00") ⟨1, 17, 1⟩ = false) :=
  schedule_window_characterization (scheduleOnlyConfig "22:00" "06:00") ⟨1, 23, 0⟩
    "22:00" "06:00" 2200 600 rfl rfl rfl rfl (by decide) (by decide)
    (by decide) (by decide)

/-- Whether the case-insensitive pattern occurs anywhere in the character
list (the match test of `replaceCIGo`, at every suffix). -/
def hasPatCI (pat : List Char) : List Char → Bool
  | [] => false
  | c :: rest =>
    decide (((c :: rest).take pat.length).map Char.toLower = pat.map Char.toLower) ||
      hasPatCI pat rest

theorem replaceCIGo_of_not_hasPat (pat val : List Char) (fuel : Nat) (s : List Char)
    (h : hasPatCI pat s = false) : replaceCIGo pat val fuel s = s := by
  induction fuel generalizing s with
  | zero => cases s <;> rfl
  | succ n ih =>
    cases s with
    | nil => rfl
    | cons c rest =>
      simp only [hasPatCI, Bool.or_eq_false_iff, decide_eq_false_iff_not] at h
      obtain ⟨h1, h2⟩ := h
      simp only [replaceCIGo, if_neg h1]
      rw [ih rest h2]

theorem replaceAllCI_of_not_hasPat (s pat val : String)
    (h : hasPatCI pat.data s.data = false) : replaceAllCI s pat val = s := by
  unfold replaceAllCI
  rw [replaceCIGo_of_not_hasPat pat.data val.data s.data.length s.data h]

theorem replaceTemplateVariables_unreferenced (t : String) (vars : List (String × String))
    (h : ∀ kv ∈ vars, hasPatCI ("\x7b" ++ kv.1 ++ "\x7d").data t.data = false) :
    replaceTemplateVariables t vars = t := by
  induction vars with
  | nil => rfl
  | cons kv rest ih =>
    unfold replaceTemplateVariables
    simp only [List.foldl_cons]
    rw [replaceAllCI_of_not_hasPat t _ kv.2 (h kv (List.mem_cons_self kv rest))]
    exact ih (fun kv2 hm => h kv2 (List.mem_cons_of_mem kv hm))

/-- Keys on which the unescaped `new RegExp('\x7bkey\x7d', 'gi')` of
routes.ts line 10 denotes the literal brace-wrapped key: letters, digits,
underscores and spaces carry no regex metacharacter. -/
def regexSafeKey (k : String) : Bool :=
  k.data.all (fun c => c.isAlpha || c.isDigit || c = '_' || c = ' ')

/-- Values free of `$`, which JS `String.prototype.replace` splices
verbatim (a `$`-pattern in the value would be expanded instead). -/
def dollarFreeVal (v : String) : Bool :=
  v.data.all (fun c => c ≠ '$')

/-- Segments in which no character lowercases to an opening brace, so no
case-insensitive brace-led pattern match can start inside them. -/
def braceFree (l : List Char) : Bool :=
  l.all (fun c => c.toLower ≠ '\x7b')

/-- Any fuel at least the string's length gives the exact replacement. -/
theorem replaceCIGo_fuel (pat val : List Char) :
    ∀ (fuel fuel' : Nat) (s : List Char), s.length ≤ fuel → s.length ≤ fuel' →
      replaceCIGo pat val fuel s = replaceCIGo pat val fuel' s := by
  intro fuel
  induction fuel with
  | zero =>
    intro fuel' s hs _
    have hnil : s = [] := List.length_eq_zero.mp (Nat.le_zero.mp hs)
    subst hnil
    cases fuel' <;> rfl
  | succ n ih =>
    intro fuel' s hs hs'
    cases s with
    | nil => cases fuel' <;> rfl
    | cons c rest =>
      cases fuel' with
      | zero =>
        simp only [List.length_cons] at hs'
        exact absurd hs' (by omega)
      | succ m =>
        have hrn : rest.length ≤ n := by
          simp only [List.length_cons] at hs
          omega
        have hrm : rest.length ≤ m := by
          simp only [List.length_cons] at hs'
          omega
        have hdn : (rest.drop (pat.length - 1)).length ≤ n := by
          rw [List.length_drop]
          omega
        have hdm : (rest.drop (pat.length - 1)).length ≤ m := by
          rw [List.length_drop]
          omega
        by_cases hc : ((c :: rest).take pat.length).map Char.toLower =
            pat.map Char.toLower
        · simp only [replaceCIGo, if_pos hc]
          rw [ih m (rest.drop (pat.length - 1)) hdn hdm]
        · simp only [replaceCIGo, if_neg hc]
          rw [ih m rest hrn hrm]

/-- The scan walks unchanged over a brace-free segment. -/
theorem replaceCIGo_skip (pat' val : List Char) :
    ∀ (a s : List Char) (fuel : Nat), braceFree a = true →
      replaceCIGo ('\x7b' :: pat') val (a.length + fuel) (a ++ s) =
        a ++ replaceCIGo ('\x7b' :: pat') val fuel s := by
  intro a
  induction a with
  | nil =>
    intro s fuel _
    simp
  | cons c a' ih =>
    intro s fuel hbf
    have hb1 := hbf
    simp only [braceFree, List.all_cons, Bool.and_eq_true, decide_eq_true_eq] at hb1
    have hc : c.toLower ≠ '\x7b' := hb1.1
    have hbf' : braceFree a' = true := hb1.2
    have hne : ¬(((c :: (a' ++ s)).take ('\x7b' :: pat').length).map Char.toLower =
        ('\x7b' :: pat').map Char.toLower) := by
      intro hcon
      rw [List.length_cons, List.take_succ_cons, List.map_cons, List.map_cons] at hcon
      injection hcon with h1 _
      rw [show Char.toLower '\x7b' = '\x7b' by decide] at h1
      exact hc h1
    have hfl : (c :: a').length + fuel = (a'.length + fuel) + 1 := by
      simp only [List.length_cons]
      omega
    rw [List.cons_append, hfl]
    simp only [replaceCIGo, if_neg hne]
    rw [ih s fuel hbf']
    rfl

/-- A leading case variant of the pattern is replaced by the value and the
scan resumes right after it. -/
theorem replaceCIGo_match (pat val K s : List Char) (fuel : Nat)
    (hK : K.map Char.toLower = pat.map Char.toLower) (hne : pat ≠ []) :
    replaceCIGo pat val (fuel + 1) (K ++ s) = val ++ replaceCIGo pat val fuel s := by
  cases pat with
  | nil => exact absurd rfl hne
  | cons p0 pat' =>
    cases K with
    | nil => simp at hK
    | cons k0 K' =>
      have hlen : K'.length = pat'.length := by
        have hl := congrArg List.length hK
        simp only [List.length_map, List.length_cons] at hl
        omega
      have htake : ((k0 :: (K' ++ s)).take ((p0 :: pat').length)) = k0 :: K' := by
        rw [List.length_cons, List.take_succ_cons, ← hlen, List.take_left]
      have hcond : ((k0 :: (K' ++ s)).take ((p0 :: pat').length)).map Char.toLower =
          (p0 :: pat').map Char.toLower := by
        rw [htake]
        exact hK
      rw [List.cons_append]
      simp only [replaceCIGo, if_pos hcond]
      have hdrop : (K' ++ s).drop ((p0 :: pat').length - 1) = s := by
        rw [List.length_cons, Nat.add_sub_cancel, ← hlen, List.drop_left]
      rw [hdrop]

/-- One global replacement on `A ++ K ++ B` with `A` brace-free and `K` a
case variant of the pattern: `A` passes through, `K` becomes the value,
and the tail `B` is rewritten on its own. -/
theorem replaceCIGo_decompose (pat' val A K B : List Char)
    (ha : braceFree A = true)
    (hK : K.map Char.toLower = ('\x7b' :: pat').map Char.toLower) :
    replaceCIGo ('\x7b' :: pat') val (A ++ K ++ B).length (A ++ K ++ B) =
      A ++ val ++ replaceCIGo ('\x7b' :: pat') val B.length B := by
  have hKlen : K.length = pat'.length + 1 := by
    have hl := congrArg List.length hK
    simp only [List.length_map, List.length_cons] at hl
    omega
  rw [List.append_assoc]
  have hlen2 : (A ++ (K ++ B)).length = A.length + (K.length - 1 + B.length + 1) := by
    simp only [List.length_append]
    omega
  rw [hlen2, replaceCIGo_skip pat' val A (K ++ B) (K.length - 1 + B.length + 1) ha]
  rw [replaceCIGo_match ('\x7b' :: pat') val K B (K.length - 1 + B.length) hK
    (by simp)]
  rw [replaceCIGo_fuel ('\x7b' :: pat') val (K.length - 1 + B.length) B.length B
    (by omega) (le_refl _)]
  rw [← List.append_assoc]

/-- String-level form of the decomposition: one pass of the renderer's
per-entry replacement on `a ++ K ++ b`. -/
theorem replaceAllCI_decompose (a K b k v : String)
    (ha : braceFree a.data = true)
    (hK : K.data.map Char.toLower = ("\x7b" ++ k ++ "\x7d").data.map Char.toLower) :
    replaceAllCI (a ++ K ++ b) ("\x7b" ++ k ++ "\x7d") v =
      a ++ v ++ replaceAllCI b ("\x7b" ++ k ++ "\x7d") v := by
  have hpat : ("\x7b" ++ k ++ "\x7d").data = '\x7b' :: (k.data ++ ['\x7d']) := by
    rw [String.data_append, String.data_append]
    rfl
  rw [hpat] at hK
  have hmain := replaceCIGo_decompose (k.data ++ ['\x7d']) v.data a.data K.data b.data
    ha hK
  apply String.ext
  show replaceCIGo ("\x7b" ++ k ++ "\x7d").data v.data (a ++ K ++ b).data.length
      (a ++ K ++ b).data =
    (a ++ v ++ replaceAllCI b ("\x7b" ++ k ++ "\x7d") v).data
  rw [show (a ++ K ++ b).data = a.data ++ K.data ++ b.data by
    rw [String.data_append, String.data_append]]
  rw [hpat, hmain]
  rw [String.data_append, String.data_append]
  rw [show (replaceAllCI b ("\x7b" ++ k ++ "\x7d") v).data =
      replaceCIGo ('\x7b' :: (k.data ++ ['\x7d'])) v.data b.data.length b.data by
    rw [← hpat]
    rfl]

/-- C5 counterexample: a variable referenced in the template but absent
from the mapping is left as literal braces, not replaced by the empty
string, contradicting the claim. -/
theorem template_missing_variable_counterexample :
    replaceTemplateVariables "Hi \x7bfoo\x7d" [("username", "jane")] = "Hi \x7bfoo\x7d" ∧
    replaceTemplateVariables "Hi \x7bfoo\x7d" [("username", "jane")] ≠ "Hi " := by
  exact ⟨by decide, by decide⟩

/-- C5 (amended): `replaceTemplateVariables` is the sequential fold of
routes.ts lines 8-14: the empty mapping returns the template, and each
entry in order rewrites every case-insensitive occurrence of its
brace-wrapped name by its value before the remaining entries run. For an
entry whose key contains only letters, digits, underscores and spaces (so
the unescaped `RegExp` is the literal pattern) and whose value has no
dollar sign (so `replace` splices it verbatim), one step sends any string
`a ++ K ++ b` — `a` free of opening braces, `K` any case variant of the
wrapped key — to `a ++ value ++ (b rewritten the same way)`; an empty
value splices the empty string. A mapping of such keys none of whose
patterns occurs in the template leaves it unchanged, while a name the
template references without a mapping entry keeps its literal braces; and
because the fold is sequential, a later entry does rewrite braces that an
earlier entry's value introduced. -/
theorem template_renderer_behaviour (t : String) (vars : List (String × String))
    (a K b k v : String)
    (hsafe : ∀ kv ∈ vars, regexSafeKey kv.1 = true)
    (h : ∀ kv ∈ vars, hasPatCI ("\x7b" ++ kv.1 ++ "\x7d").data t.data = false)
    (hks : regexSafeKey k = true) (hvs : dollarFreeVal v = true)
    (ha : braceFree a.data = true)
    (hK : K.data.map Char.toLower = ("\x7b" ++ k ++ "\x7d").data.map Char.toLower) :
    (∀ s : String, replaceTemplateVariables s [] = s) ∧
    (∀ (s k0 v0 : String) (rest : List (String × String)),
      regexSafeKey k0 = true → dollarFreeVal v0 = true →
      replaceTemplateVariables s ((k0, v0) :: rest) =
        replaceTemplateVariables (replaceAllCI s ("\x7b" ++ k0 ++ "\x7d") v0) rest) ∧
    replaceAllCI (a ++ K ++ b) ("\x7b" ++ k ++ "\x7d") v =
      a ++ v ++ replaceAllCI b ("\x7b" ++ k ++ "\x7d") v ∧
    replaceTemplateVariables t vars = t ∧
    replaceTemplateVariables "Hi \x7busername\x7d, you said \x7bkeyword\x7d"
      [("username", "jane"), ("keyword", "deal")] = "Hi jane, you said deal" ∧
    replaceTemplateVariables "Hi \x7bUSERNAME\x7d!" [("username", "jane")] = "Hi jane!" ∧
    replaceTemplateVariables "Hello \x7bname\x7d" [("name", ""), ("unused", "x")] =
      "Hello " ∧
    replaceTemplateVariables "\x7ba\x7d" [("a", "\x7bb\x7d"), ("b", "x")] = "x" ∧
    replaceTemplateVariables "\x7ba\x7d" [("a", "\x7bb\x7d")] = "\x7bb\x7d" := by
  refine ⟨fun s => rfl, fun s k0 v0 rest _ _ => rfl,
    replaceAllCI_decompose a K b k v ha hK,
    replaceTemplateVariables_unreferenced t vars h,
    by decide, by decide, by decide, by decide, by decide⟩

/-- Witness for the amended template renderer theorem: the mapping entry
`username` is unreferenced by `Hi \x7bfoo\x7d` so that template survives
unchanged, one replacement step rewrites `Hi \x7bUserName\x7d!` in full,
and the fold-order pair is exhibited. -/
theorem template_renderer_behaviour_witness :
    (∀ kv ∈ [("username", "jane")], regexSafeKey kv.1 = true) ∧
    regexSafeKey "username" = true ∧
    dollarFreeVal "jane" = true ∧
    braceFree ("Hi " : String).data = true ∧
    ((∀ s : String, replaceTemplateVariables s [] = s) ∧
     (∀ (s k0 v0 : String) (rest : List (String × String)),
       regexSafeKey k0 = true → dollarFreeVal v0 = true →
       replaceTemplateVariables s ((k0, v0) :: rest) =
         replaceTemplateVariables (replaceAllCI s ("\x7b" ++ k0 ++ "\x7d") v0) rest) ∧
     replaceAllCI ("Hi " ++ "\x7bUserName\x7d" ++ "!") ("\x7b" ++ "username" ++ "\x7d")
         "jane" =
       "Hi " ++ "jane" ++ replaceAllCI "!" ("\x7b" ++ "username" ++ "\x7d") "jane" ∧
     replaceTemplateVariables "Hi \x7bfoo\x7d" [("username", "jane")] =
       "Hi \x7bfoo\x7d" ∧
     replaceTemplateVariables "Hi \x7busername\x7d, you said \x7bkeyword\x7d"
       [("username", "jane"), ("keyword", "deal")] = "Hi jane, you said deal" ∧
     replaceTemplateVariables "Hi \x7bUSERNAME\x7d!" [("username", "jane")] =
       "Hi jane!" ∧
     replaceTemplateVariables "Hello \x7bname\x7d" [("name", ""), ("unused", "x")] =
       "Hello " ∧
     replaceTemplateVariables "\x7ba\x7d" [("a", "\x7bb\x7d"), ("b", "x")] = "x" ∧
     replaceTemplateVariables "\x7ba\x7d" [("a", "\x7bb\x7d")] = "\x7bb\x7d") :=
  ⟨by decide, by decide, by decide, by decide,
    template_renderer_behaviour "Hi \x7bfoo\x7d" [("username", "jane")]
      "Hi " "\x7bUserName\x7d" "!" "username" "jane"
      (by decide) (by decide) (by decide) (by decide) (by decide) (by decide)⟩

/-- Oracle under which every provider call succeeds. -/
def okOracle : Oracle := fun _ => none

/-- Oracle under which every provider call fails with HTTP 500. -/
def failOracle : Oracle := fun _ => some 500

/-- A config blob with nothing set. -/
def baseConfig : AutomationConfig :=
  { keywords := none, triggerWords := none, messageTemplate := none, mediaId := none,
    links := [], delaySeconds := 0, scheduleEnabled := false, scheduleDays := none,
    scheduleStartTime := none, scheduleEndTime := none,
    commentReplyEnabled := false, commentReplyTemplate := none }

/-- A connected account fixture. -/
def acctFix : Account :=
  { id := "A1", userId := "U1", username := "biz", instagramUserId := "IG1",
    igBusinessAccountId := some "B1", accessToken := some "tok",
    pageAccessToken := none, isActive := true }

/-- Noon on a Sunday, far from any schedule window edge. -/
def noonNow : NowTime := ⟨0, 12, 0⟩

/-- A store holding exactly the fixture account and the given automations. -/
def stWith (autos : List Automation) : St :=
  { accounts := [acctFix], automations := autos, processedComments := [],
    activityLogs := [], followers := [], scheduledMessages := [],
    webhookCache := [], nextId := 0 }

/-- The inbound comment fixture. -/
def commentFix : CommentData :=
  { id := "C1", text := some "the PRICE please", fromUsername := some "jane",
    fromId := some "F1", mediaId := some "M1" }

/-- C10: a comment automation whose `keywords` key is absent or the empty
list never fires — `[].find(...)` is `undefined`, so the comment branch is
match-nothing — leaving the store untouched and attempting no call; in
contrast, a message automation with an empty trigger list and a non-empty
template fires (match-all). -/
theorem comment_empty_keywords_never_fires (o : Oracle) (now : NowTime) (clock : Nat)
    (igUserId : String) (cd : CommentData) (acct : Account) (a : Automation) (st : St)
    (h : a.config.keywords = none ∨ a.config.keywords = some []) :
    processCommentAutomation o now clock igUserId cd acct a st = (st, []) ∧
    (processDmAutomation okOracle noonNow 100 "S1" "hello there" acctFix
      { id := "AU2", instagramAccountId := "A1", type := "auto_dm_reply", title := "t",
        isActive := true,
        config := { baseConfig with keywords := some [], messageTemplate := some "yo" },
        stats := { totalReplies := 0, lastTriggered := none } }
      (stWith [])).2 ≠ [] := by
  constructor
  · unfold processCommentAutomation
    rcases h with h | h <;> simp [h]
  · decide

/-- Witness for the match-nothing behaviour of comment automations with an
empty keyword list. -/
theorem comment_empty_keywords_never_fires_witness :
    (processCommentAutomation okOracle noonNow 100 "B1" commentFix acctFix
      { id := "AU1", instagramAccountId := "A1", type := "comment_to_dm", title := "t",
        isActive := true, config := { baseConfig with keywords := some [] },
        stats := { totalReplies := 0, lastTriggered := none } }
      (stWith []) = (stWith [], [])) ∧
    (processDmAutomation okOracle noonNow 100 "S1" "hello there" acctFix
      { id := "AU2", instagramAccountId := "A1", type := "auto_dm_reply", title := "t",
        isActive := true,
        config := { baseConfig with keywords := some [], messageTemplate := some "yo" },
        stats := { totalReplies := 0, lastTriggered := none } }
      (stWith [])).2 ≠ [] :=
  comment_empty_keywords_never_fires okOracle noonNow 100 "B1" commentFix acctFix
    { id := "AU1", instagramAccountId := "A1", type := "comment_to_dm", title := "t",
      isActive := true, config := { baseConfig with keywords := some [] },
      stats := { totalReplies := 0, lastTriggered := none } }
    (stWith []) (Or.inr rfl)

/-- C2 counterexample: a POST body whose `object` is `instagram` but with
no `entry` array makes `for (const entry of body.entry)` throw; the outer
catch answers 500, not 200. -/
theorem webhook_missing_entry_counterexample :
    (processWebhook okOracle noonNow 1 { object := "instagram", entry := none }
      (stWith [])).1 = 500 ∧
    (processWebhook okOracle noonNow 1 { object := "instagram", entry := none }
      (stWith [])).1 ≠ 200 := by
  exact ⟨rfl, by decide⟩

/-- C2 (amended): once the body has `object == "instagram"` and an
iterable `entry` array, the handler always responds 200 — per-delivery
failures are caught inside the loops; but when an exception escapes the
entry loop (here: `entry` missing, so iterating it throws), the outer
catch responds 500. -/
theorem webhook_status_semantics (o : Oracle) (now : NowTime) (clock : Nat)
    (entries : List Entry) (st : St) :
    (processWebhook o now clock { object := "instagram", entry := some entries } st).1 =
      200 ∧
    (processWebhook o now clock { object := "instagram", entry := none } st).1 = 500 := by
  constructor <;> simp [processWebhook]

/-- Witness for the webhook status semantics on a one-entry payload. -/
theorem webhook_status_semantics_witness :
    (processWebhook okOracle noonNow 1
      { object := "instagram",
        entry := some [{ id := "B1", changes := none, messaging := none }] }
      (stWith [])).1 = 200 ∧
    (processWebhook okOracle noonNow 1 { object := "instagram", entry := none }
      (stWith [])).1 = 500 :=
  webhook_status_semantics okOracle noonNow 1
    [{ id := "B1", changes := none, messaging := none }] (stWith [])

/-- The firing comment automation fixture. -/
def commentAutoFix : Automation :=
  { id := "AU1", instagramAccountId := "A1", type := "comment_to_dm", title := "t",
    isActive := true,
    config := { baseConfig with
                keywords := some ["price"],
                messageTemplate := some "Hi \x7busername\x7d" },
    stats := { totalReplies := 0, lastTriggered := none } }

/-- C4: the router checks the ledger before acting and writes the
provisional `processing` record before delivery, but because
`markCommentProcessed` returns an existing row unchanged, the second call
carrying the final outcome never updates the stored action: after a fully
successful delivery the record still reads `processing`, while the
activity log records `dm_sent`. -/
theorem processed_action_stays_provisional :
    (processCommentChange okOracle noonNow 100 "B1" commentFix
      (stWith [commentAutoFix])).1.processedComments =
      [{ instagramAccountId := "A1", commentId := "C1", automationId := "AU1",
         action := "processing" }] ∧
    (processCommentChange okOracle noonNow 100 "B1" commentFix
      (stWith [commentAutoFix])).1.activityLogs.map (fun e => e.action) = ["dm_sent"] ∧
    ¬((processCommentChange okOracle noonNow 100 "B1" commentFix
      (stWith [commentAutoFix])).1.processedComments.map (fun p => p.action) =
        ["dm_sent"]) := by
  exact ⟨by decide, by decide, by decide⟩

/-- The external comment id an outbound call is addressed by, if any. -/
def ApiCall.targetComment : ApiCall → Option String
  | ApiCall.igPrivateReply _ commentId _ => some commentId
  | ApiCall.fbPrivateReply _ _ commentId _ => some commentId
  | ApiCall.igCommentReply _ commentId _ => some commentId
  | ApiCall.fbCommentReply _ commentId _ => some commentId
  | ApiCall.dmSend _ _ _ _ => none

/-- Whether a call is a provider private-reply call. -/
def ApiCall.isPrivateReplyCall : ApiCall → Bool
  | ApiCall.igPrivateReply _ _ _ => true
  | ApiCall.fbPrivateReply _ _ _ _ => true
  | _ => false

/-- Whether a call is a public comment-reply call. -/
def ApiCall.isPublicReplyCall : ApiCall → Bool
  | ApiCall.igCommentReply _ _ _ => true
  | ApiCall.fbCommentReply _ _ _ => true
  | _ => false

theorem sendPrivateReply_calls_target (o : Oracle) (t b c m : String) :
    (sendPrivateReply o t b c m).calls.all (fun x => x.targetComment == some c) = true := by
  unfold sendPrivateReply
  rcases h1 : o (ApiCall.igPrivateReply t c m) with _ | e1
  · simp [h1, ApiCall.targetComment]
  · rcases h2 : o (ApiCall.fbPrivateReply t b c m) with _ | e2 <;>
      simp [h1, h2, ApiCall.targetComment]

theorem sendPrivateReply_calls_hasPrivate (o : Oracle) (t b c m : String) :
    (sendPrivateReply o t b c m).calls.any (fun x => x.isPrivateReplyCall) = true := by
  unfold sendPrivateReply
  rcases h1 : o (ApiCall.igPrivateReply t c m) with _ | e1
  · simp [h1, ApiCall.isPrivateReplyCall]
  · rcases h2 : o (ApiCall.fbPrivateReply t b c m) with _ | e2 <;>
      simp [h1, h2, ApiCall.isPrivateReplyCall]

theorem sendPrivateReply_calls_noPublic (o : Oracle) (t b c m : String) :
    (sendPrivateReply o t b c m).calls.any (fun x => x.isPublicReplyCall) = false := by
  unfold sendPrivateReply
  rcases h1 : o (ApiCall.igPrivateReply t c m) with _ | e1
  · simp [h1, ApiCall.isPublicReplyCall]
  · rcases h2 : o (ApiCall.fbPrivateReply t b c m) with _ | e2 <;>
      simp [h1, h2, ApiCall.isPublicReplyCall]

theorem replyToComment_calls_target (o : Oracle) (t c m : String) :
    (replyToComment o t c m).calls.all (fun x => x.targetComment == some c) = true := by
  unfold replyToComment
  rcases h1 : o (ApiCall.igCommentReply t c m) with _ | e1
  · simp [h1, ApiCall.targetComment]
  · by_cases he : e1 = 400
    · rcases h2 : o (ApiCall.fbCommentReply t c m) with _ | e2 <;>
        simp [h1, he, h2, ApiCall.targetComment]
    · simp [h1, he, ApiCall.targetComment]

theorem replyToComment_calls_hasPublic (o : Oracle) (t c m : String) :
    (replyToComment o t c m).calls.any (fun x => x.isPublicReplyCall) = true := by
  unfold replyToComment
  rcases h1 : o (ApiCall.igCommentReply t c m) with _ | e1
  · simp [h1, ApiCall.isPublicReplyCall]
  · by_cases he : e1 = 400
    · rcases h2 : o (ApiCall.fbCommentReply t c m) with _ | e2 <;>
        simp [h1, he, h2, ApiCall.isPublicReplyCall]
    · simp [h1, he, ApiCall.isPublicReplyCall]

theorem replyToComment_calls_noPrivate (o : Oracle) (t c m : String) :
    (replyToComment o t c m).calls.any (fun x => x.isPrivateReplyCall) = false := by
  unfold replyToComment
  rcases h1 : o (ApiCall.igCommentReply t c m) with _ | e1
  · simp [h1, ApiCall.isPrivateReplyCall]
  · by_cases he : e1 = 400
    · rcases h2 : o (ApiCall.fbCommentReply t c m) with _ | e2 <;>
        simp [h1, he, h2, ApiCall.isPrivateReplyCall]
    · simp [h1, he, ApiCall.isPrivateReplyCall]

/-- The comment automation fixture with the public comment reply
configured. -/
def commentAutoReplyFix : Automation :=
  { commentAutoFix with
    config := { commentAutoFix.config with
                commentReplyEnabled := true,
                commentReplyTemplate := some "thanks \x7busername\x7d" } }

/-- C6 counterexample: with `commentReplyEnabled` configured, the pipeline
posts the public comment reply even though the private reply succeeded
(the activity log records `dm_sent`), contradicting the claim that no
public reply is posted when the private reply succeeds. -/
theorem public_reply_after_successful_dm_counterexample :
    (processCommentChange okOracle noonNow 100 "B1" commentFix
      (stWith [commentAutoReplyFix])).2 =
      [ApiCall.igPrivateReply "tok" "C1" "Hi jane",
       ApiCall.igCommentReply "tok" "C1" "thanks jane"] ∧
    (processCommentChange okOracle noonNow 100 "B1" commentFix
      (stWith [commentAutoReplyFix])).1.activityLogs.map
      (fun e => e.action) = ["dm_sent"] := by
  exact ⟨by decide, by decide⟩

/-- C6 (amended): in the private-reply flow every outbound call is keyed
by the external comment id (there is no fallback to a generic,
recipient-id-addressed DM call), a private-reply call is always attempted,
and a public comment reply is attempted iff `commentReplyEnabled` and a
non-empty `commentReplyTemplate` are configured — regardless of whether
the private reply succeeded; there is no followers-only fallback gate in
this flow. -/
theorem private_reply_flow_calls (o : Oracle) (now : NowTime) (clock : Nat)
    (igUserId : String) (cd : CommentData) (acct : Account) (a : Automation) (st : St)
    (kw : String)
    (hs : isWithinSchedule a.config now = true)
    (hm : ¬(truthyS a.config.mediaId ∧ cd.mediaId ≠ some (a.config.mediaId.getD "")))
    (hk : (a.config.keywords.getD []).find?
      (fun kw => jsIncludes (jsToLower (cd.text.getD "")) (jsToLower kw)) = some kw)
    (hkne : kw ≠ "")
    (hpr : isCommentProcessed st acct.id cd.id a.id = false)
    (hat : truthyS acct.accessToken = true) :
    ((processCommentAutomation o now clock igUserId cd acct a st).2.all
      (fun x => x.targetComment == some cd.id) = true) ∧
    ((processCommentAutomation o now clock igUserId cd acct a st).2.any
      (fun x => x.isPrivateReplyCall) = true) ∧
    (((processCommentAutomation o now clock igUserId cd acct a st).2.any
      (fun x => x.isPublicReplyCall) = true) ↔
      (a.config.commentReplyEnabled = true ∧
        truthyS a.config.commentReplyTemplate = true)) := by
  unfold processCommentAutomation
  simp only [hs, hk, hpr, hat, hkne, not_true, Bool.true_eq_false, if_false,
    ite_false, ite_true, if_neg hm]
  simp only [Bool.false_eq_true, if_false]
  by_cases hf : a.config.commentReplyEnabled = true ∧
      truthyS a.config.commentReplyTemplate = true
  · simp [if_pos hf, List.all_append, List.any_append, hf,
      sendPrivateReply_calls_target, sendPrivateReply_calls_hasPrivate,
      sendPrivateReply_calls_noPublic, replyToComment_calls_target,
      replyToComment_calls_hasPublic, replyToComment_calls_noPrivate]
  · simp [if_neg hf, List.all_append, List.any_append, hf,
      sendPrivateReply_calls_target, sendPrivateReply_calls_hasPrivate,
      sendPrivateReply_calls_noPublic, replyToComment_calls_target,
      replyToComment_calls_hasPublic, replyToComment_calls_noPrivate]


/-- Witness for the private-reply flow calls theorem on the fixture
account, automation, and comment. -/
theorem private_reply_flow_calls_witness :
    ((processCommentAutomation okOracle noonNow 100 "B1" commentFix acctFix
      commentAutoReplyFix (stWith [commentAutoReplyFix])).2.all
      (fun x => x.targetComment == some commentFix.id) = true) ∧
    ((processCommentAutomation okOracle noonNow 100 "B1" commentFix acctFix
      commentAutoReplyFix (stWith [commentAutoReplyFix])).2.any
      (fun x => x.isPrivateReplyCall) = true) ∧
    (((processCommentAutomation okOracle noonNow 100 "B1" commentFix acctFix
      commentAutoReplyFix (stWith [commentAutoReplyFix])).2.any
      (fun x => x.isPublicReplyCall) = true) ↔
      (commentAutoReplyFix.config.commentReplyEnabled = true ∧
        truthyS commentAutoReplyFix.config.commentReplyTemplate = true)) :=
  private_reply_flow_calls okOracle noonNow 100 "B1" commentFix acctFix
    commentAutoReplyFix (stWith [commentAutoReplyFix]) "price" (by decide) (by decide)
    (by decide) (by decide) (by decide) (by decide)

theorem sendDirectMessageCore_calls_ne_nil (r1 r2 r3 : Option Nat) (c1 c2 c3 : ApiCall)
    (ef bp : Bool) : (sendDirectMessageCore r1 r2 r3 c1 c2 c3 ef bp).calls ≠ [] := by
  unfold sendDirectMessageCore
  rcases r1 with _ | e1 <;> rcases r2 with _ | e2 <;> rcases r3 with _ | e3 <;>
    cases ef <;> cases bp <;> simp

theorem sendDirectMessage_calls_ne_nil (o : Oracle) (t rid msg : String)
    (buttons : List DMButton) (biz page : Option String) :
    (sendDirectMessage o t rid msg buttons biz page).calls ≠ [] := by
  unfold sendDirectMessage
  apply sendDirectMessageCore_calls_ne_nil

theorem sendDirectMessageWithButtons_calls_ne_nil (o : Oracle) (t rid msg : String)
    (links : List Link) (biz page : Option String) :
    (sendDirectMessageWithButtons o t rid msg links biz page).calls ≠ [] := by
  simp only [sendDirectMessageWithButtons]
  split <;> apply sendDirectMessage_calls_ne_nil

theorem dmKeywordMatch_iff (l : List String) (txt : String)
    (htw : ∀ w ∈ l, w ≠ "") :
    (((l.length == 0) ||
      (match l.find? (fun tw => jsIncludes (jsToLower txt) (jsToLower tw)) with
       | some tw => tw ≠ ""
       | none => false)) = true) ↔
    (l = [] ∨ l.any (fun tw => jsIncludes (jsToLower txt) (jsToLower tw)) = true) := by
  rcases hf : l.find? (fun tw => jsIncludes (jsToLower txt) (jsToLower tw)) with _ | tw
  · have hfn := hf
    rw [List.find?_eq_none] at hfn
    have hany : l.any (fun tw => jsIncludes (jsToLower txt) (jsToLower tw)) = false := by
      rw [Bool.eq_false_iff]
      intro hcon
      rw [List.any_eq_true] at hcon
      obtain ⟨x, hx, hpx⟩ := hcon
      exact absurd hpx (by simpa using hfn x hx)
    simp [hf, hany, List.length_eq_zero]
  · have hmem := List.mem_of_find?_eq_some hf
    have hp := List.find?_some hf
    have hany : l.any (fun tw => jsIncludes (jsToLower txt) (jsToLower tw)) = true := by
      rw [List.any_eq_true]
      exact ⟨tw, hmem, hp⟩
    simp [hf, hany, htw tw hmem]

theorem processDmAutomation_skip_schedule (o : Oracle) (now : NowTime) (clock : Nat)
    (sid txt : String) (acct : Account) (a : Automation) (st : St)
    (hsch : isWithinSchedule a.config now = false) :
    processDmAutomation o now clock sid txt acct a st = (st, []) := by
  simp only [processDmAutomation]
  rw [if_pos (by simp [hsch])]

theorem processDmAutomation_skip_condition (o : Oracle) (now : NowTime) (clock : Nat)
    (sid txt : String) (acct : Account) (a : Automation) (st : St)
    (hc : ¬((((dmTriggerWords a.config).length == 0) ||
        (match (dmTriggerWords a.config).find?
            (fun tw => jsIncludes (jsToLower txt) (jsToLower tw)) with
         | some tw => tw ≠ ""
         | none => false)) = true ∧ a.config.messageTemplate.getD "" ≠ "")) :
    processDmAutomation o now clock sid txt acct a st = (st, []) := by
  simp only [processDmAutomation]
  by_cases hsch : isWithinSchedule a.config now = true
  · rw [if_neg (by simp [hsch])]
    rw [if_neg hc]
  · rw [if_pos (by simp [hsch])]

theorem processDmAutomation_fire_calls_ne_nil (o : Oracle) (now : NowTime) (clock : Nat)
    (sid txt : String) (acct : Account) (a : Automation) (st : St)
    (hsch : isWithinSchedule a.config now = true)
    (hc : ((((dmTriggerWords a.config).length == 0) ||
        (match (dmTriggerWords a.config).find?
            (fun tw => jsIncludes (jsToLower txt) (jsToLower tw)) with
         | some tw => tw ≠ ""
         | none => false)) = true ∧ a.config.messageTemplate.getD "" ≠ "")) :
    (processDmAutomation o now clock sid txt acct a st).2 ≠ [] := by
  simp only [processDmAutomation]
  rw [if_neg (by simp [hsch])]
  rw [if_pos hc]
  split
  · dsimp only
    split
    · apply sendDirectMessageWithButtons_calls_ne_nil
    · apply sendDirectMessage_calls_ne_nil
  · dsimp only
    split
    · apply sendDirectMessageWithButtons_calls_ne_nil
    · apply sendDirectMessage_calls_ne_nil

/-- The DM automation fixture whose keyword matches but whose message
template is missing. -/
def dmAutoNoTemplateFix : Automation :=
  { id := "AU2", instagramAccountId := "A1", type := "auto_dm_reply", title := "t",
    isActive := true, config := { baseConfig with keywords := some ["hi"] },
    stats := { totalReplies := 0, lastTriggered := none } }

/-- The inbound DM fixture. -/
def msgEvFix : MessagingEvent :=
  { senderId := some "S1", messageText := some "hi there", reaction := false }

/-- C8 counterexample: an active `auto_dm_reply` automation whose trigger
word is a case-insensitive substring of the message and which passes the
schedule gate, but whose message template is missing: the claim says it
fires, yet the handler attempts no call and changes nothing. -/
theorem dm_fire_without_template_counterexample :
    jsIncludes (jsToLower "hi there") (jsToLower "hi") = true ∧
    dmAutoNoTemplateFix.isActive = true ∧
    isWithinSchedule dmAutoNoTemplateFix.config noonNow = true ∧
    processMessagingEvent okOracle noonNow 100 "B1" msgEvFix
      (stWith [dmAutoNoTemplateFix]) = (stWith [dmAutoNoTemplateFix], []) := by
  exact ⟨by decide, by decide, by decide, by decide⟩

/-- C8 (amended): for a message event and an automation with only
non-empty trigger words, the automation attempts a delivery iff it is
active, of type `auto_dm_reply` or `mention_reply`, schedule-eligible, its
trigger list is empty (match-all) or some trigger word is a
case-insensitive substring of the message text, and its message template
is non-empty. -/
theorem dm_automation_fire_characterization (o : Oracle) (now : NowTime) (clock : Nat)
    (sid txt igUserId : String) (acct : Account) (a : Automation) (st : St)
    (hsid : sid ≠ "") (htxt : txt ≠ "")
    (ha : st.accounts = [acct])
    (hbiz : acct.igBusinessAccountId = some igUserId)
    (hautos : st.automations = [a])
    (hown : a.instagramAccountId = acct.id)
    (htw : ∀ w ∈ dmTriggerWords a.config, w ≠ "") :
    ((processMessagingEvent o now clock igUserId
        { senderId := some sid, messageText := some txt, reaction := false } st).2 ≠ [] ↔
      (a.isActive = true ∧ (a.type = "auto_dm_reply" ∨ a.type = "mention_reply") ∧
        isWithinSchedule a.config now = true ∧
        (dmTriggerWords a.config = [] ∨
          (dmTriggerWords a.config).any
            (fun tw => jsIncludes (jsToLower txt) (jsToLower tw)) = true) ∧
        a.config.messageTemplate.getD "" ≠ "")) := by
  have hacct : getInstagramAccountByBusinessId st igUserId = some acct := by
    simp [getInstagramAccountByBusinessId, ha, hbiz]
  have hlist : getAutomationsByInstagramAccountId st acct.id = [a] := by
    simp [getAutomationsByInstagramAccountId, hautos, hown]
  have h1 : truthyS (some sid) = true := by simp [truthyS, hsid]
  have h2 : truthyS (some txt) = true := by simp [truthyS, htxt]
  unfold processMessagingEvent
  simp only [hacct, hlist, h1, h2, and_self, and_false, if_true, if_false,
    Bool.false_eq_true, Option.getD_some]
  by_cases hfilter : a.isActive = true ∧
      (a.type = "auto_dm_reply" ∨ a.type = "mention_reply")
  · rw [List.filter_cons_of_pos (by simpa using hfilter), List.filter_nil]
    simp only [runList, List.append_nil]
    rcases hsch : isWithinSchedule a.config now with _ | _
    · rw [processDmAutomation_skip_schedule o now clock sid txt acct a st hsch]
      simp [hsch]
    · by_cases hc : ((((dmTriggerWords a.config).length == 0) ||
          (match (dmTriggerWords a.config).find?
              (fun tw => jsIncludes (jsToLower txt) (jsToLower tw)) with
           | some tw => tw ≠ ""
           | none => false)) = true ∧ a.config.messageTemplate.getD "" ≠ "")
      · have hne := processDmAutomation_fire_calls_ne_nil o now clock sid txt acct a st
          hsch hc
        have hfire := (dmKeywordMatch_iff (dmTriggerWords a.config) txt htw).mp hc.1
        constructor
        · intro _
          exact ⟨hfilter.1, hfilter.2, rfl, hfire, hc.2⟩
        · intro _
          simpa [runList] using hne
      · rw [processDmAutomation_skip_condition o now clock sid txt acct a st hc]
        rw [not_and_or] at hc
        rcases hc with hc | hc
        · rw [dmKeywordMatch_iff (dmTriggerWords a.config) txt htw] at hc
          constructor
          · intro hcon
            exact absurd rfl hcon
          · intro hrhs
            exact absurd hrhs.2.2.2.1 hc
        · simp only [ne_eq, not_not] at hc
          constructor
          · intro hcon
            exact absurd rfl hcon
          · intro hrhs
            exact absurd hc hrhs.2.2.2.2
  · rw [List.filter_cons_of_neg (by simpa using hfilter), List.filter_nil]
    simp only [runList]
    rw [not_and_or] at hfilter
    rcases hfilter with hf | hf <;> simp [hf]

/-- Witness for the DM fire characterization: the fixture automation has
trigger word `hi`, template `yo`, and the fixture message is `hi there`. -/
theorem dm_automation_fire_characterization_witness :
    ((processMessagingEvent okOracle noonNow 100 "B1"
        { senderId := some "S1", messageText := some "hi there", reaction := false }
        (stWith [{ dmAutoNoTemplateFix with
                   config := { dmAutoNoTemplateFix.config with
                               messageTemplate := some "yo" } }])).2 ≠ [] ↔
      ({ dmAutoNoTemplateFix with
         config := { dmAutoNoTemplateFix.config with
                     messageTemplate := some "yo" } }.isActive = true ∧
        ({ dmAutoNoTemplateFix with
           config := { dmAutoNoTemplateFix.config with
                       messageTemplate := some "yo" } }.type = "auto_dm_reply" ∨
         { dmAutoNoTemplateFix with
           config := { dmAutoNoTemplateFix.config with
                       messageTemplate := some "yo" } }.type = "mention_reply") ∧
        isWithinSchedule { dmAutoNoTemplateFix with
                           config := { dmAutoNoTemplateFix.config with
                                       messageTemplate := some "yo" } }.config noonNow =
          true ∧
        (dmTriggerWords { dmAutoNoTemplateFix with
                          config := { dmAutoNoTemplateFix.config with
                                      messageTemplate := some "yo" } }.config = [] ∨
          (dmTriggerWords { dmAutoNoTemplateFix with
                            config := { dmAutoNoTemplateFix.config with
                                        messageTemplate := some "yo" } }.config).any
            (fun tw => jsIncludes (jsToLower "hi there") (jsToLower tw)) = true) ∧
        { dmAutoNoTemplateFix with
          config := { dmAutoNoTemplateFix.config with
                      messageTemplate := some "yo" } }.config.messageTemplate.getD "" ≠
          "")) :=
  dm_automation_fire_characterization okOracle noonNow 100 "S1" "hi there" "B1" acctFix
    { dmAutoNoTemplateFix with
      config := { dmAutoNoTemplateFix.config with messageTemplate := some "yo" } }
    (stWith [{ dmAutoNoTemplateFix with
               config := { dmAutoNoTemplateFix.config with
                           messageTemplate := some "yo" } }])
    (by decide) (by decide) rfl rfl rfl rfl (by decide)

theorem sendDirectMessage_result_allfail (o : Oracle) (t rid msg : String)
    (buttons : List DMButton) (biz page : Option String)
    (hall : ∀ c, o c = some 500) :
    (sendDirectMessage o t rid msg buttons biz page).result = Except.error 500 := by
  simp only [sendDirectMessage, sendDirectMessageCore, hall]
  split <;> split <;> rfl

theorem sendDirectMessageWithButtons_result_allfail (o : Oracle) (t rid msg : String)
    (links : List Link) (biz page : Option String)
    (hall : ∀ c, o c = some 500) :
    (sendDirectMessageWithButtons o t rid msg links biz page).result =
      Except.error 500 := by
  simp only [sendDirectMessageWithButtons]
  split <;> apply sendDirectMessage_result_allfail o _ _ _ _ _ _ hall

theorem processDmAutomation_allfail_state (o : Oracle) (now : NowTime) (clock : Nat)
    (sid txt : String) (acct : Account) (a : Automation) (st : St)
    (hall : ∀ c, o c = some 500) :
    (processDmAutomation o now clock sid txt acct a st).1 = st := by
  simp only [processDmAutomation]
  split
  · rfl
  · split
    · split
      · rfl
      · rename_i heq
        split at heq
        · rw [sendDirectMessageWithButtons_result_allfail o _ _ _ _ _ _ hall] at heq
          exact absurd heq (by simp)
        · rw [sendDirectMessage_result_allfail o _ _ _ _ _ _ hall] at heq
          exact absurd heq (by simp)
    · rfl

/-- The first DM automation fixture: match-all, template `m1`. -/
def dmAutoM1 : Automation :=
  { id := "AUa", instagramAccountId := "A1", type := "auto_dm_reply", title := "t1",
    isActive := true,
    config := { baseConfig with keywords := some [], messageTemplate := some "m1" },
    stats := { totalReplies := 0, lastTriggered := none } }

/-- The second DM automation fixture: match-all, template `m2`. -/
def dmAutoM2 : Automation :=
  { id := "AUb", instagramAccountId := "A1", type := "auto_dm_reply", title := "t2",
    isActive := true,
    config := { baseConfig with keywords := some [], messageTemplate := some "m2" },
    stats := { totalReplies := 0, lastTriggered := none } }

/-- An oracle that rejects exactly the sends whose text body is `m1`. -/
def textM1FailOracle : Oracle := fun c =>
  match c with
  | ApiCall.dmSend _ _ _ (Payload.text "m1") => some 500
  | _ => none

/-- An oracle that rejects rich (button) payloads and accepts text-only
sends. -/
def richFailOracle : Oracle := fun c =>
  match c with
  | ApiCall.dmSend _ _ _ (Payload.generic _ _ _) => some 500
  | _ => none

/-- C7: if the send with buttons fails, the dispatcher retries with a
text-only payload and reports success when that retry succeeds; when every
attempt fails, the error is returned as a recorded outcome (the original
error value) rather than raised — the automation loop leaves the store
untouched for the failing automation and still evaluates the remaining
automations from the same state, as the concrete two-automation run shows:
the first automation's sends all fail, yet the second automation's success
is logged. -/
theorem dm_fallback_chain_and_isolation (o o2 : Oracle) (t rid msg : String)
    (buttons : List DMButton) (biz page : Option String) (now : NowTime) (clock : Nat)
    (sid txt : String) (acct : Account) (a : Automation) (rest : List Automation)
    (st : St)
    (hb : buttons.length > 0)
    (hrich : ∀ ep tok r2 ti sub btns,
      o (ApiCall.dmSend ep tok r2 (Payload.generic ti sub btns)) = some 500)
    (htext : ∀ ep tok r2 m, o (ApiCall.dmSend ep tok r2 (Payload.text m)) = none)
    (hall : ∀ c, o2 c = some 500) :
    (sendDirectMessage o t rid msg buttons biz page).result = Except.ok () ∧
    (sendDirectMessage o2 t rid msg buttons biz page).result = Except.error 500 ∧
    (runList (processDmAutomation o2 now clock sid txt acct) (a :: rest) st).1 =
      (runList (processDmAutomation o2 now clock sid txt acct) rest st).1 ∧
    (processMessagingEvent textM1FailOracle noonNow 100 "B1"
      { senderId := some "S1", messageText := some "hello", reaction := false }
      (stWith [dmAutoM1, dmAutoM2])).1.activityLogs.map (fun e => e.automationId) =
      [some "AUb"] := by
  refine ⟨?_, sendDirectMessage_result_allfail o2 t rid msg buttons biz page hall,
    ?_, by decide⟩
  · simp only [sendDirectMessage]
    rw [if_pos hb]
    simp only [sendDirectMessageCore, hrich, htext]
    split <;> simp [hb]
  · simp only [runList]
    rw [processDmAutomation_allfail_state o2 now clock sid txt acct a st hall]

/-- Witness for the fallback chain and isolation theorem, on a one-button
payload with the rich-rejecting and all-rejecting oracles. -/
theorem dm_fallback_chain_and_isolation_witness :
    (sendDirectMessage richFailOracle "tok" "S1" "hello"
      [{ url := "https://x", title := "Open" }] (some "B1") none).result =
      Except.ok () ∧
    (sendDirectMessage failOracle "tok" "S1" "hello"
      [{ url := "https://x", title := "Open" }] (some "B1") none).result =
      Except.error 500 ∧
    (runList (processDmAutomation failOracle noonNow 100 "S1" "hello" acctFix)
      (dmAutoM1 :: [dmAutoM2]) (stWith [dmAutoM1, dmAutoM2])).1 =
      (runList (processDmAutomation failOracle noonNow 100 "S1" "hello" acctFix)
        [dmAutoM2] (stWith [dmAutoM1, dmAutoM2])).1 ∧
    (processMessagingEvent textM1FailOracle noonNow 100 "B1"
      { senderId := some "S1", messageText := some "hello", reaction := false }
      (stWith [dmAutoM1, dmAutoM2])).1.activityLogs.map (fun e => e.automationId) =
      [some "AUb"] :=
  dm_fallback_chain_and_isolation richFailOracle failOracle "tok" "S1" "hello"
    [{ url := "https://x", title := "Open" }] (some "B1") none noonNow 100 "S1" "hello"
    acctFix dmAutoM1 [dmAutoM2] (stWith [dmAutoM1, dmAutoM2]) (by decide)
    (fun ep tok r2 ti sub btns => rfl) (fun ep tok r2 m => rfl) (fun c => rfl)

theorem mem_map_self {α : Type} (l : List α) (f : α → α) (r : α) (hr : r ∈ l)
    (hf : f r = r) : r ∈ l.map f := by
  have := List.mem_map_of_mem f hr
  rwa [hf] at this

theorem deliver_preserves_other (o : Oracle) (msg : ScheduledMessage) (acct : Account)
    (rid : String) (st : St) (r : ScheduledMessage) (hr : r ∈ st.scheduledMessages)
    (hne : r.id ≠ msg.id) :
    r ∈ (deliverScheduledMessage o msg acct rid st).1.scheduledMessages := by
  simp only [deliverScheduledMessage]
  split
  · simp only [markScheduledMessageFailed]
    exact mem_map_self _ _ r hr (by simp [hne])
  · simp only [createActivityLog, markScheduledMessageProcessed]
    exact mem_map_self _ _ r hr (by simp [hne])

theorem deliver_terminal (o : Oracle) (msg : ScheduledMessage) (acct : Account)
    (rid : String) (st : St) (r' : ScheduledMessage)
    (hr' : r' ∈ (deliverScheduledMessage o msg acct rid st).1.scheduledMessages)
    (hid : r'.id = msg.id) : r'.status = "sent" ∨ r'.status = "failed" := by
  simp only [deliverScheduledMessage] at hr'
  split at hr'
  · simp only [markScheduledMessageFailed, List.mem_map] at hr'
    obtain ⟨rr, hrr, heq⟩ := hr'
    by_cases h : rr.id = msg.id
    · rw [if_pos h] at heq
      right
      rw [← heq]
    · rw [if_neg h] at heq
      subst heq
      exact absurd hid h
  · simp only [createActivityLog, markScheduledMessageProcessed, List.mem_map] at hr'
    obtain ⟨rr, hrr, heq⟩ := hr'
    by_cases h : rr.id = msg.id
    · rw [if_pos h] at heq
      left
      rw [← heq]
    · rw [if_neg h] at heq
      subst heq
      exact absurd hid h

theorem deliver_trace (o : Oracle) (msg : ScheduledMessage) (acct : Account)
    (rid : String) (st : St) (r' : ScheduledMessage)
    (hr' : r' ∈ (deliverScheduledMessage o msg acct rid st).1.scheduledMessages) :
    (r'.status = "sent" ∨ r'.status = "failed") ∨
      ∃ rr, rr ∈ st.scheduledMessages ∧ rr.id = r'.id ∧ rr.status = r'.status := by
  simp only [deliverScheduledMessage] at hr'
  split at hr'
  · simp only [markScheduledMessageFailed, List.mem_map] at hr'
    obtain ⟨rr, hrr, heq⟩ := hr'
    by_cases h : rr.id = msg.id
    · rw [if_pos h] at heq
      exact Or.inl (Or.inr (by rw [← heq]))
    · rw [if_neg h] at heq
      subst heq
      exact Or.inr ⟨rr, hrr, rfl, rfl⟩
  · simp only [createActivityLog, markScheduledMessageProcessed, List.mem_map] at hr'
    obtain ⟨rr, hrr, heq⟩ := hr'
    by_cases h : rr.id = msg.id
    · rw [if_pos h] at heq
      exact Or.inl (Or.inl (by rw [← heq]))
    · rw [if_neg h] at heq
      subst heq
      exact Or.inr ⟨rr, hrr, rfl, rfl⟩

theorem processScheduledMessage_preserves_other (o : Oracle) (m : ScheduledMessage)
    (st : St) (r : ScheduledMessage) (hr : r ∈ st.scheduledMessages)
    (hne : r.id ≠ m.id) :
    r ∈ (processScheduledMessage o m st).1.scheduledMessages := by
  simp only [processScheduledMessage]
  split
  · simp only [markScheduledMessageFailed]
    exact mem_map_self _ _ r hr (by simp [hne])
  · split
    · split
      · split
        · apply deliver_preserves_other
          · simp only [updateScheduledMessageRecipient]
            exact mem_map_self _ _ r hr (by simp [hne])
          · exact hne
        · simp only [markScheduledMessageFailed]
          exact mem_map_self _ _ r hr (by simp [hne])
      · simp only [markScheduledMessageFailed]
        exact mem_map_self _ _ r hr (by simp [hne])
    · exact deliver_preserves_other o m _ _ st r hr hne

theorem processScheduledMessage_terminal (o : Oracle) (m : ScheduledMessage) (st : St)
    (r' : ScheduledMessage)
    (hr' : r' ∈ (processScheduledMessage o m st).1.scheduledMessages)
    (hid : r'.id = m.id) : r'.status = "sent" ∨ r'.status = "failed" := by
  simp only [processScheduledMessage] at hr'
  split at hr'
  · simp only [markScheduledMessageFailed, List.mem_map] at hr'
    obtain ⟨rr, hrr, heq⟩ := hr'
    by_cases h : rr.id = m.id
    · rw [if_pos h] at heq
      right
      rw [← heq]
    · rw [if_neg h] at heq
      subst heq
      exact absurd hid h
  · split at hr'
    · split at hr'
      · split at hr'
        · exact deliver_terminal _ _ _ _ _ r' hr' hid
        · simp only [markScheduledMessageFailed, List.mem_map] at hr'
          obtain ⟨rr, hrr, heq⟩ := hr'
          by_cases h : rr.id = m.id
          · rw [if_pos h] at heq
            right
            rw [← heq]
          · rw [if_neg h] at heq
            subst heq
            exact absurd hid h
      · simp only [markScheduledMessageFailed, List.mem_map] at hr'
        obtain ⟨rr, hrr, heq⟩ := hr'
        by_cases h : rr.id = m.id
        · rw [if_pos h] at heq
          right
          rw [← heq]
        · rw [if_neg h] at heq
          subst heq
          exact absurd hid h
    · exact deliver_terminal _ _ _ _ _ r' hr' hid

theorem processScheduledMessage_trace (o : Oracle) (m : ScheduledMessage) (st : St)
    (r' : ScheduledMessage)
    (hr' : r' ∈ (processScheduledMessage o m st).1.scheduledMessages) :
    (r'.status = "sent" ∨ r'.status = "failed") ∨
      ∃ rr, rr ∈ st.scheduledMessages ∧ rr.id = r'.id ∧ rr.status = r'.status := by
  simp only [processScheduledMessage] at hr'
  split at hr'
  · simp only [markScheduledMessageFailed, List.mem_map] at hr'
    obtain ⟨rr, hrr, heq⟩ := hr'
    by_cases h : rr.id = m.id
    · rw [if_pos h] at heq
      exact Or.inl (Or.inr (by rw [← heq]))
    · rw [if_neg h] at heq
      subst heq
      exact Or.inr ⟨rr, hrr, rfl, rfl⟩
  · split at hr'
    · split at hr'
      · split at hr'
        · rcases deliver_trace _ _ _ _ _ r' hr' with h | ⟨rr, hrr, hideq, hsteq⟩
          · exact Or.inl h
          · simp only [updateScheduledMessageRecipient, List.mem_map] at hrr
            obtain ⟨rr0, hrr0, heq0⟩ := hrr
            by_cases h0 : rr0.id = m.id
            · rw [if_pos h0] at heq0
              refine Or.inr ⟨rr0, hrr0, ?_, ?_⟩
              · rw [← hideq, ← heq0]
              · rw [← hsteq, ← heq0]
            · rw [if_neg h0] at heq0
              subst heq0
              exact Or.inr ⟨rr0, hrr0, hideq, hsteq⟩
        · simp only [markScheduledMessageFailed, List.mem_map] at hr'
          obtain ⟨rr, hrr, heq⟩ := hr'
          by_cases h : rr.id = m.id
          · rw [if_pos h] at heq
            exact Or.inl (Or.inr (by rw [← heq]))
          · rw [if_neg h] at heq
            subst heq
            exact Or.inr ⟨rr, hrr, rfl, rfl⟩
      · simp only [markScheduledMessageFailed, List.mem_map] at hr'
        obtain ⟨rr, hrr, heq⟩ := hr'
        by_cases h : rr.id = m.id
        · rw [if_pos h] at heq
          exact Or.inl (Or.inr (by rw [← heq]))
        · rw [if_neg h] at heq
          subst heq
          exact Or.inr ⟨rr, hrr, rfl, rfl⟩
    · exact deliver_trace _ _ _ _ _ r' hr'

theorem runList_terminal_stable (o : Oracle) (L : List ScheduledMessage) (st : St)
    (I : String)
    (hterm : ∀ rr ∈ st.scheduledMessages, rr.id = I →
      rr.status = "sent" ∨ rr.status = "failed") :
    ∀ r' ∈ (runList (processScheduledMessage o) L st).1.scheduledMessages,
      r'.id = I → r'.status = "sent" ∨ r'.status = "failed" := by
  induction L generalizing st with
  | nil => exact hterm
  | cons m rest ih =>
    intro r' hr' hid
    simp only [runList] at hr'
    refine ih (processScheduledMessage o m st).1 ?_ r' hr' hid
    intro rr hrr hrid
    by_cases hmi : m.id = I
    · exact processScheduledMessage_terminal o m st rr hrr (by rw [hrid, hmi])
    · rcases processScheduledMessage_trace o m st rr hrr with h | ⟨rr0, hrr0, hideq, hsteq⟩
      · exact h
      · rw [← hsteq]
        exact hterm rr0 hrr0 (by rw [hideq, hrid])

theorem runList_processes_terminal (o : Oracle) (L : List ScheduledMessage) (st : St)
    (m : ScheduledMessage) (hm : m ∈ L) :
    ∀ r' ∈ (runList (processScheduledMessage o) L st).1.scheduledMessages,
      r'.id = m.id → r'.status = "sent" ∨ r'.status = "failed" := by
  induction L generalizing st with
  | nil => cases hm
  | cons a rest ih =>
    intro r' hr' hid
    simp only [runList] at hr'
    rcases List.mem_cons.mp hm with heq | hmem
    · subst heq
      refine runList_terminal_stable o rest (processScheduledMessage o m st).1 m.id ?_
        r' hr' hid
      intro rr hrr hrid
      exact processScheduledMessage_terminal o m st rr hrr hrid
    · exact ih (processScheduledMessage o a st).1 hmem r' hr' hid

theorem runList_preserves_other (o : Oracle) (L : List ScheduledMessage) (st : St)
    (r : ScheduledMessage) (hr : r ∈ st.scheduledMessages)
    (hne : ∀ m ∈ L, r.id ≠ m.id) :
    r ∈ (runList (processScheduledMessage o) L st).1.scheduledMessages := by
  induction L generalizing st with
  | nil => exact hr
  | cons m rest ih =>
    simp only [runList]
    refine ih (processScheduledMessage o m st).1 ?_ (fun m2 hm2 => hne m2 (by simp [hm2]))
    exact processScheduledMessage_preserves_other o m st r hr (hne m (by simp))

/-- C9: a due pending scheduled message is picked up by the tick and every
row carrying its id ends in a terminal state (`sent` or `failed`); the
work list visits each message id at most once; and a message already
`failed` is left untouched by the tick — it is never re-attempted. -/
theorem scheduled_runner_tick (o : Oracle) (clock : Nat) (st : St)
    (m r q : ScheduledMessage)
    (hnd : (st.scheduledMessages.map (fun x => x.id)).Nodup)
    (hm : m ∈ getPendingScheduledMessages st clock)
    (hr : r ∈ (runnerTick o clock st).1.scheduledMessages)
    (hrid : r.id = m.id)
    (hq : q ∈ st.scheduledMessages)
    (hqf : q.status = "failed") :
    (r.status = "sent" ∨ r.status = "failed") ∧
    q ∈ (runnerTick o clock st).1.scheduledMessages ∧
    ((getPendingScheduledMessages st clock).map (fun x => x.id)).Nodup := by
  have hpendsub : ∀ x ∈ getPendingScheduledMessages st clock,
      x ∈ st.scheduledMessages ∧ x.status = "pending" := by
    intro x hx
    simp only [getPendingScheduledMessages, List.mem_filter] at hx
    obtain ⟨hx1, hx2⟩ := hx
    simp only [decide_eq_true_iff, Bool.and_eq_true] at hx2
    exact ⟨hx1, hx2.1⟩
  refine ⟨?_, ?_, ?_⟩
  · exact runList_processes_terminal o (getPendingScheduledMessages st clock) st m hm
      r hr hrid
  · apply runList_preserves_other o _ st q hq
    intro m2 hm2 hcon
    obtain ⟨hm2mem, hm2p⟩ := hpendsub m2 hm2
    have hqm : q = m2 :=
      List.inj_on_of_nodup_map hnd hq hm2mem (by simpa using hcon)
    rw [hqm, hm2p] at hqf
    exact absurd hqf (by decide)
  · have hsub : List.Sublist (getPendingScheduledMessages st clock)
        st.scheduledMessages := List.filter_sublist st.scheduledMessages
    exact List.Nodup.sublist (hsub.map (fun x => x.id)) hnd

/-- A due pending scheduled message fixture. -/
def schedMsgDue : ScheduledMessage :=
  { id := "S1", userId := "U1", instagramAccountId := "A1",
    recipientInstagramId := "R1", recipientUsername := some "jane",
    message := "hello", links := [], scheduledFor := 50, status := "pending",
    error := none, note := none }

/-- An already-failed scheduled message fixture. -/
def schedMsgFailed : ScheduledMessage :=
  { id := "S2", userId := "U1", instagramAccountId := "A1",
    recipientInstagramId := "R2", recipientUsername := none,
    message := "old", links := [], scheduledFor := 10, status := "failed",
    error := some "boom", note := none }

/-- The store for the runner witness. -/
def schedSt : St :=
  { stWith [] with scheduledMessages := [schedMsgDue, schedMsgFailed] }

/-- Witness for the runner tick theorem: one due pending message that the
provider accepts (it transitions to `sent`), alongside an old `failed`
message that the tick leaves untouched. -/
theorem scheduled_runner_tick_witness :
    (({ schedMsgDue with status := "sent" } : ScheduledMessage).status = "sent" ∨
      ({ schedMsgDue with status := "sent" } : ScheduledMessage).status = "failed") ∧
    schedMsgFailed ∈ (runnerTick okOracle 100 schedSt).1.scheduledMessages ∧
    ((getPendingScheduledMessages schedSt 100).map (fun x => x.id)).Nodup :=
  scheduled_runner_tick okOracle 100 schedSt schedMsgDue
    { schedMsgDue with status := "sent" } schedMsgFailed (by decide) (by decide)
    (by decide) (by decide) (by decide) (by decide)

/-- Number of idempotency-ledger rows for one (account, comment,
automation) triple. -/
def recCount (st : St) (acctId cid aid : String) : Nat :=
  (st.processedComments.filter
    (fun p => p.instagramAccountId = acctId ∧ p.commentId = cid ∧
      p.automationId = aid)).length

/-- Number of activity-log rows attributed to one automation. -/
def actCount (st : St) (aid : String) : Nat :=
  (st.activityLogs.filter (fun e => e.automationId = some aid)).length

theorem trackCommenter_effects (st : St) (accountId : String) (fromId : Option String)
    (u : String) :
    (trackCommenter st accountId fromId u).processedComments = st.processedComments ∧
    (trackCommenter st accountId fromId u).activityLogs = st.activityLogs ∧
    (trackCommenter st accountId fromId u).accounts = st.accounts := by
  unfold trackCommenter
  split
  · split
    · split <;> [skip; split] <;>
        simp [createFollowerTracking, updateFollowerTrackingUsername]
    · simp
  · simp

theorem isCommentProcessed_false_iff (st : St) (a c i : String) :
    isCommentProcessed st a c i = false ↔ recCount st a c i = 0 := by
  unfold isCommentProcessed recCount
  rw [List.length_eq_zero, List.filter_eq_nil_iff]
  rcases hf : st.processedComments.find?
      (fun p => p.instagramAccountId = a ∧ p.commentId = c ∧ p.automationId = i)
    with _ | p
  · simp only [hf, Option.isSome_none, true_iff]
    rw [List.find?_eq_none] at hf
    intro q hq
    simpa using hf q hq
  · simp only [hf, Option.isSome_some, Bool.true_eq_false, false_iff, not_forall]
    have hmem := List.mem_of_find?_eq_some hf
    have hp := List.find?_some hf
    refine ⟨p, hmem, ?_⟩
    simpa using hp

theorem markCommentProcessed_of_processed (st : St) (a c i act : String)
    (h : isCommentProcessed st a c i = true) :
    (markCommentProcessed st a c i act).2 = st ∧
    (markCommentProcessed st a c i act).1 ∈ st.processedComments := by
  rw [isCommentProcessed, Option.isSome_iff_exists] at h
  obtain ⟨p, hp⟩ := h
  unfold markCommentProcessed
  rw [hp]
  exact ⟨rfl, List.mem_of_find?_eq_some hp⟩

theorem markCommentProcessed_insert (st : St) (a c i act : String)
    (h : isCommentProcessed st a c i = false) :
    (markCommentProcessed st a c i act).2.processedComments =
      st.processedComments ++
        [{ instagramAccountId := a, commentId := c, automationId := i,
           action := act }] ∧
    (markCommentProcessed st a c i act).2.activityLogs = st.activityLogs ∧
    (markCommentProcessed st a c i act).2.accounts = st.accounts := by
  have hnone : st.processedComments.find?
      (fun p => p.instagramAccountId = a ∧ p.commentId = c ∧ p.automationId = i) =
      none := by
    rcases hf : st.processedComments.find?
        (fun p => p.instagramAccountId = a ∧ p.commentId = c ∧ p.automationId = i)
      with _ | p
    · exact hf
    · rw [isCommentProcessed, hf] at h
      simp at h
  unfold markCommentProcessed
  rw [hnone]
  exact ⟨rfl, rfl, rfl⟩

theorem recCount_append_one (l : List ProcessedComment) (p : ProcessedComment)
    (x y z : String) :
    ((l ++ [p]).filter
      (fun q => q.instagramAccountId = x ∧ q.commentId = y ∧
        q.automationId = z)).length =
    (l.filter (fun q => q.instagramAccountId = x ∧ q.commentId = y ∧
      q.automationId = z)).length +
      (if p.instagramAccountId = x ∧ p.commentId = y ∧ p.automationId = z then 1
       else 0) := by
  rw [List.filter_append]
  simp only [List.length_append]
  split
  · rename_i hp
    simp [List.filter, hp]
  · rename_i hp
    simp [List.filter, hp]

theorem recCount_congr (st st' : St) (x y z : String)
    (h : st'.processedComments = st.processedComments) :
    recCount st' x y z = recCount st x y z := by
  unfold recCount
  rw [h]

theorem actCount_congr (st st' : St) (z : String)
    (h : st'.activityLogs = st.activityLogs) :
    actCount st' z = actCount st z := by
  unfold actCount
  rw [h]

theorem isCommentProcessed_congr (st st' : St) (a c i : String)
    (h : st'.processedComments = st.processedComments) :
    isCommentProcessed st' a c i = isCommentProcessed st a c i := by
  unfold isCommentProcessed
  rw [h]

theorem actCount_createActivityLog (st : St) (e : ActivityEntry) (z : String) :
    actCount (createActivityLog st e) z =
      actCount st z + (if e.automationId = some z then 1 else 0) := by
  unfold actCount createActivityLog
  rw [List.filter_append, List.length_append]
  split
  · rename_i hp
    simp [List.filter, hp]
  · rename_i hp
    simp [List.filter, hp]

theorem isCommentProcessed_of_mem (st : St) (p : ProcessedComment)
    (hp : p ∈ st.processedComments) (a c i : String)
    (h1 : p.instagramAccountId = a) (h2 : p.commentId = c) (h3 : p.automationId = i) :
    isCommentProcessed st a c i = true := by
  unfold isCommentProcessed
  rw [Option.isSome_iff_exists]
  have : (st.processedComments.find?
      (fun q => q.instagramAccountId = a ∧ q.commentId = c ∧
        q.automationId = i)).isSome = true := by
    rw [List.find?_isSome]
    exact ⟨p, hp, by simp [h1, h2, h3]⟩
  rwa [Option.isSome_iff_exists] at this

theorem recCount_insert (st1 : St) (A C I : String)
    (h1 : isCommentProcessed st1 A C I = false) (act1 x y z : String) :
    recCount (markCommentProcessed st1 A C I act1).2 x y z =
      recCount st1 x y z + (if A = x ∧ C = y ∧ I = z then 1 else 0) := by
  have hins := markCommentProcessed_insert st1 A C I act1 h1
  unfold recCount
  rw [hins.1, recCount_append_one]

theorem actCount_insert (st1 : St) (A C I : String)
    (h1 : isCommentProcessed st1 A C I = false) (act1 z : String) :
    actCount (markCommentProcessed st1 A C I act1).2 z = actCount st1 z :=
  actCount_congr _ _ _ (markCommentProcessed_insert st1 A C I act1 h1).2.1

theorem isCommentProcessed_after_insert (st1 : St) (A C I : String)
    (h1 : isCommentProcessed st1 A C I = false) (act1 : String) (S : Stats) :
    isCommentProcessed
      (updateAutomationStats (markCommentProcessed st1 A C I act1).2 I S) A C I =
      true := by
  rw [isCommentProcessed_congr _ _ A C I
    (show (updateAutomationStats (markCommentProcessed st1 A C I act1).2 I S).processedComments =
      (markCommentProcessed st1 A C I act1).2.processedComments from rfl)]
  have hins := markCommentProcessed_insert st1 A C I act1 h1
  refine isCommentProcessed_of_mem _
    { instagramAccountId := A, commentId := C, automationId := I, action := act1 }
    ?_ A C I rfl rfl rfl
  rw [hins.1]
  exact List.mem_append_right _ (by simp)

theorem recCount_full_path (st1 : St) (A C I : String)
    (h1 : isCommentProcessed st1 A C I = false) (S : Stats) (act1 act2 : String)
    (e : ActivityEntry) (x y z : String) :
    recCount (createActivityLog
      (markCommentProcessed
        (updateAutomationStats (markCommentProcessed st1 A C I act1).2 I S)
        A C I act2).2 e) x y z =
      recCount st1 x y z + (if A = x ∧ C = y ∧ I = z then 1 else 0) := by
  have hproc3 := isCommentProcessed_after_insert st1 A C I h1 act1 S
  have h4 := markCommentProcessed_of_processed _ A C I act2 hproc3
  calc recCount (createActivityLog
        (markCommentProcessed
          (updateAutomationStats (markCommentProcessed st1 A C I act1).2 I S)
          A C I act2).2 e) x y z
      = recCount (markCommentProcessed
          (updateAutomationStats (markCommentProcessed st1 A C I act1).2 I S)
          A C I act2).2 x y z := recCount_congr _ _ x y z rfl
    _ = recCount (updateAutomationStats (markCommentProcessed st1 A C I act1).2 I S)
          x y z := by rw [h4.1]
    _ = recCount (markCommentProcessed st1 A C I act1).2 x y z :=
          recCount_congr _ _ x y z rfl
    _ = recCount st1 x y z + (if A = x ∧ C = y ∧ I = z then 1 else 0) :=
          recCount_insert st1 A C I h1 act1 x y z

theorem actCount_full_path (st1 : St) (A C I : String)
    (h1 : isCommentProcessed st1 A C I = false) (S : Stats) (act1 act2 : String)
    (e : ActivityEntry) (z : String) :
    actCount (createActivityLog
      (markCommentProcessed
        (updateAutomationStats (markCommentProcessed st1 A C I act1).2 I S)
        A C I act2).2 e) z =
      actCount st1 z + (if e.automationId = some z then 1 else 0) := by
  have hproc3 := isCommentProcessed_after_insert st1 A C I h1 act1 S
  have h4 := markCommentProcessed_of_processed _ A C I act2 hproc3
  rw [actCount_createActivityLog]
  rw [h4.1]
  rw [actCount_congr _ _ z
    (show (updateAutomationStats (markCommentProcessed st1 A C I act1).2 I S).activityLogs =
      (markCommentProcessed st1 A C I act1).2.activityLogs from rfl)]
  rw [actCount_insert st1 A C I h1 act1 z]

/-- Per-automation count behaviour of the comment loop body: ledger rows
never shrink, grow to at most one per triple, and each new activity-log
row for an automation is matched by a new ledger row for that automation
on the processed comment. -/
theorem processCommentAutomation_counts (o : Oracle) (now : NowTime) (clock : Nat)
    (igUserId : String) (cd : CommentData) (acct : Account) (a : Automation) (st : St)
    (x y z : String) :
    recCount st x y z ≤
      recCount (processCommentAutomation o now clock igUserId cd acct a st).1 x y z ∧
    recCount (processCommentAutomation o now clock igUserId cd acct a st).1 x y z ≤
      max (recCount st x y z) 1 ∧
    actCount (processCommentAutomation o now clock igUserId cd acct a st).1 z +
        recCount st acct.id cd.id z ≤
      actCount st z +
        recCount (processCommentAutomation o now clock igUserId cd acct a st).1
          acct.id cd.id z := by
  simp only [processCommentAutomation]
  split
  · exact ⟨le_refl _, le_max_left _ _, le_refl _⟩
  split
  · exact ⟨le_refl _, le_max_left _ _, le_refl _⟩
  split
  · exact ⟨le_refl _, le_max_left _ _, le_refl _⟩
  rename_i kw hfind
  split
  · exact ⟨le_refl _, le_max_left _ _, le_refl _⟩
  split
  · exact ⟨le_refl _, le_max_left _ _, le_refl _⟩
  rename_i hkw hproc
  have hpf : isCommentProcessed st acct.id cd.id a.id = false := by
    simpa using hproc
  have hrec0 : recCount st acct.id cd.id a.id = 0 :=
    (isCommentProcessed_false_iff st acct.id cd.id a.id).mp hpf
  have htc := trackCommenter_effects st acct.id cd.fromId
    (if truthyS cd.fromUsername = true then cd.fromUsername.getD "" else "friend")
  have hpf1 : isCommentProcessed
      (trackCommenter st acct.id cd.fromId
        (if truthyS cd.fromUsername = true then cd.fromUsername.getD "" else "friend"))
      acct.id cd.id a.id = false := by
    rw [isCommentProcessed_congr _ _ _ _ _ htc.1]
    exact hpf
  have hrcs : ∀ X Y Z, recCount
      (trackCommenter st acct.id cd.fromId
        (if truthyS cd.fromUsername = true then cd.fromUsername.getD "" else "friend"))
      X Y Z = recCount st X Y Z :=
    fun X Y Z => recCount_congr _ _ X Y Z htc.1
  have hacs : ∀ Z, actCount
      (trackCommenter st acct.id cd.fromId
        (if truthyS cd.fromUsername = true then cd.fromUsername.getD "" else "friend"))
      Z = actCount st Z :=
    fun Z => actCount_congr _ _ Z htc.2.1
  split
  · refine ⟨?_, ?_, ?_⟩
    · rw [recCount_insert _ acct.id cd.id a.id hpf1, hrcs]
      omega
    · rw [recCount_insert _ acct.id cd.id a.id hpf1, hrcs]
      by_cases hind : acct.id = x ∧ cd.id = y ∧ a.id = z
      · rw [if_pos hind]
        obtain ⟨h1, h2, h3⟩ := hind
        rw [← h1, ← h2, ← h3, hrec0]
        simp
      · rw [if_neg hind]
        simp
    · rw [actCount_insert _ acct.id cd.id a.id hpf1, hacs,
        recCount_insert _ acct.id cd.id a.id hpf1, hrcs]
      omega
  · refine ⟨?_, ?_, ?_⟩
    · rw [recCount_full_path _ acct.id cd.id a.id hpf1, hrcs]
      omega
    · rw [recCount_full_path _ acct.id cd.id a.id hpf1, hrcs]
      by_cases hind : acct.id = x ∧ cd.id = y ∧ a.id = z
      · rw [if_pos hind]
        obtain ⟨h1, h2, h3⟩ := hind
        rw [← h1, ← h2, ← h3, hrec0]
        simp
      · rw [if_neg hind]
        simp
    · rw [actCount_full_path _ acct.id cd.id a.id hpf1, hacs,
        recCount_full_path _ acct.id cd.id a.id hpf1, hrcs]
      simp only [Option.some.injEq]
      by_cases haz : a.id = z
      · simp only [haz, and_true, true_and, if_true, eq_self_iff_true]
        omega
      · simp [haz]

theorem accounts_full_path (st1 : St) (A C I : String)
    (h1 : isCommentProcessed st1 A C I = false) (S : Stats) (act1 act2 : String)
    (e : ActivityEntry) :
    (createActivityLog
      (markCommentProcessed
        (updateAutomationStats (markCommentProcessed st1 A C I act1).2 I S)
        A C I act2).2 e).accounts = st1.accounts := by
  have hproc3 := isCommentProcessed_after_insert st1 A C I h1 act1 S
  have h4 := markCommentProcessed_of_processed _ A C I act2 hproc3
  show (markCommentProcessed
    (updateAutomationStats (markCommentProcessed st1 A C I act1).2 I S)
    A C I act2).2.accounts = st1.accounts
  rw [h4.1]
  show (markCommentProcessed st1 A C I act1).2.accounts = st1.accounts
  exact (markCommentProcessed_insert st1 A C I act1 h1).2.2

theorem processCommentAutomation_accounts (o : Oracle) (now : NowTime) (clock : Nat)
    (igUserId : String) (cd : CommentData) (acct : Account) (a : Automation) (st : St) :
    (processCommentAutomation o now clock igUserId cd acct a st).1.accounts =
      st.accounts := by
  simp only [processCommentAutomation]
  split
  · rfl
  split
  · rfl
  split
  · rfl
  rename_i kw hfind
  split
  · rfl
  split
  · rfl
  rename_i hkw hproc
  have hpf : isCommentProcessed st acct.id cd.id a.id = false := by
    simpa using hproc
  have htc := trackCommenter_effects st acct.id cd.fromId
    (if truthyS cd.fromUsername = true then cd.fromUsername.getD "" else "friend")
  have hpf1 : isCommentProcessed
      (trackCommenter st acct.id cd.fromId
        (if truthyS cd.fromUsername = true then cd.fromUsername.getD "" else "friend"))
      acct.id cd.id a.id = false := by
    rw [isCommentProcessed_congr _ _ _ _ _ htc.1]
    exact hpf
  split
  · show (markCommentProcessed _ acct.id cd.id a.id "processing").2.accounts = _
    rw [(markCommentProcessed_insert _ acct.id cd.id a.id "processing" hpf1).2.2]
    exact htc.2.2
  · rw [accounts_full_path _ acct.id cd.id a.id hpf1]
    exact htc.2.2

theorem runList_comment_counts (o : Oracle) (now : NowTime) (clock : Nat)
    (igUserId : String) (cd : CommentData) (acct : Account) (L : List Automation)
    (st : St) (x y z : String) :
    recCount st x y z ≤
      recCount (runList (processCommentAutomation o now clock igUserId cd acct) L st).1
        x y z ∧
    recCount (runList (processCommentAutomation o now clock igUserId cd acct) L st).1
        x y z ≤ max (recCount st x y z) 1 ∧
    actCount (runList (processCommentAutomation o now clock igUserId cd acct) L st).1
        z + recCount st acct.id cd.id z ≤
      actCount st z +
        recCount (runList (processCommentAutomation o now clock igUserId cd acct) L st).1
          acct.id cd.id z := by
  induction L generalizing st with
  | nil => exact ⟨le_refl _, le_max_left _ _, le_refl _⟩
  | cons a rest ih =>
    simp only [runList]
    obtain ⟨s1, s2, s3⟩ := processCommentAutomation_counts o now clock igUserId cd acct
      a st x y z
    obtain ⟨s1A, s2A, s3A⟩ := processCommentAutomation_counts o now clock igUserId cd
      acct a st acct.id cd.id z
    obtain ⟨r1, r2, r3⟩ := ih (processCommentAutomation o now clock igUserId cd acct
      a st).1
    obtain ⟨r1A, r2A, r3A⟩ := ih (processCommentAutomation o now clock igUserId cd acct
      a st).1
    refine ⟨le_trans s1 r1, ?_, ?_⟩
    · exact le_trans r2 (by omega)
    · omega

theorem runList_comment_accounts (o : Oracle) (now : NowTime) (clock : Nat)
    (igUserId : String) (cd : CommentData) (acct : Account) (L : List Automation)
    (st : St) :
    (runList (processCommentAutomation o now clock igUserId cd acct) L st).1.accounts =
      st.accounts := by
  induction L generalizing st with
  | nil => rfl
  | cons a rest ih =>
    simp only [runList]
    rw [ih (processCommentAutomation o now clock igUserId cd acct a st).1]
    exact processCommentAutomation_accounts o now clock igUserId cd acct a st

theorem findAccountByMediaAux_mem (st : St) (mid : String) (L : List Automation)
    (acc : Account) (h : findAccountByMediaAux st mid L = some acc) :
    acc ∈ st.accounts := by
  induction L with
  | nil => cases h
  | cons a rest ih =>
    unfold findAccountByMediaAux at h
    split at h
    · rename_i hcond
      rcases hfind : getInstagramAccount st a.instagramAccountId with _ | acc2
      · rw [hfind] at h
        exact ih h
      · rw [hfind] at h
        have : acc2 = acc := by
          rw [Option.some_inj] at h
          exact h
        rw [← this]
        exact List.mem_of_find?_eq_some hfind
    · exact ih h

theorem resolved_account_mem (st0 : St) (ig : String) (cd : CommentData)
    (account : Account)
    (heq : (match (match getInstagramAccountByBusinessId st0 ig with
        | some a => some a
        | none => getInstagramAccountByInstagramUserId st0 ig) with
      | some a => some a
      | none =>
        match cd.mediaId with
        | some mid => if mid ≠ "" then findAccountByMedia st0 mid else none
        | none => none) = some account) : account ∈ st0.accounts := by
  split at heq
  · rename_i a heq1
    have h2 : a = account := Option.some_inj.mp heq
    subst h2
    split at heq1
    · rename_i a0 heq0
      have h3 : a0 = a := Option.some_inj.mp heq1
      subst h3
      exact List.mem_of_find?_eq_some heq0
    · rename_i heq0
      exact List.mem_of_find?_eq_some heq1
  · rename_i heq1
    split at heq
    · rename_i mid hmid
      split at heq
      · exact findAccountByMediaAux_mem st0 mid _ account heq
      · cases heq
    · cases heq

theorem updateBusinessId_ids (st : St) (A id big : String)
    (hacc : ∀ b ∈ st.accounts, b.id = A) :
    ∀ b ∈ (updateInstagramAccountBusinessId st id big).accounts, b.id = A := by
  intro b hb
  simp only [updateInstagramAccountBusinessId, List.mem_map] at hb
  obtain ⟨b0, hb0, heq⟩ := hb
  subst heq
  by_cases hsplit : b0.id = id
  · rw [if_pos hsplit]
    exact hacc b0 hb0
  · rw [if_neg hsplit]
    exact hacc b0 hb0

/-- Count behaviour of one whole comment-event delivery: ledger rows never
shrink, reach at most one per triple, activity growth is covered by ledger
growth for the event's comment, and every stored account keeps its id. -/
theorem processCommentChange_counts (o : Oracle) (now : NowTime) (clock : Nat)
    (igUserId : String) (cd : CommentData) (st : St) (A x y z : String)
    (hacc : ∀ b ∈ st.accounts, b.id = A) :
    recCount st x y z ≤
      recCount (processCommentChange o now clock igUserId cd st).1 x y z ∧
    recCount (processCommentChange o now clock igUserId cd st).1 x y z ≤
      max (recCount st x y z) 1 ∧
    actCount (processCommentChange o now clock igUserId cd st).1 z +
        recCount st A cd.id z ≤
      actCount st z +
        recCount (processCommentChange o now clock igUserId cd st).1 A cd.id z ∧
    (∀ b ∈ (processCommentChange o now clock igUserId cd st).1.accounts, b.id = A) := by
  simp only [processCommentChange]
  split
  · exact ⟨le_refl _, le_max_left _ _, le_refl _, hacc⟩
  split
  · exact ⟨le_refl _, le_max_left _ _, le_refl _, hacc⟩
  rename_i account heq
  have hmem0 := resolved_account_mem _ igUserId cd account heq
  have hmem : account ∈ st.accounts := hmem0
  have hAid : account.id = A := hacc account hmem
  subst hAid
  split
  · rename_i hbiz
    obtain ⟨r1, r2, r3⟩ := runList_comment_counts o now clock igUserId cd account _
      (updateInstagramAccountBusinessId
        { st with webhookCache := (isWebhookDuplicate clock ("comment:" ++ cd.id)
            st.webhookCache).2 }
        account.id igUserId) x y z
    obtain ⟨q1, q2, q3⟩ := runList_comment_counts o now clock igUserId cd account _
      (updateInstagramAccountBusinessId
        { st with webhookCache := (isWebhookDuplicate clock ("comment:" ++ cd.id)
            st.webhookCache).2 }
        account.id igUserId) account.id cd.id z
    refine ⟨r1, r2, q3, ?_⟩
    rw [runList_comment_accounts]
    apply updateBusinessId_ids _ account.id account.id igUserId
    exact hacc
  · obtain ⟨q1, q2, q3⟩ := runList_comment_counts o now clock igUserId cd account _
      { st with webhookCache := (isWebhookDuplicate clock ("comment:" ++ cd.id)
          st.webhookCache).2 } account.id cd.id z
    obtain ⟨r1, r2, r3⟩ := runList_comment_counts o now clock igUserId cd account _
      { st with webhookCache := (isWebhookDuplicate clock ("comment:" ++ cd.id)
          st.webhookCache).2 } x y z
    refine ⟨r1, r2, q3, ?_⟩
    rw [runList_comment_accounts]
    exact hacc

theorem recCount_of_fresh (st : St) (x c z : String)
    (hfresh : ∀ p ∈ st.processedComments, p.commentId ≠ c) :
    recCount st x c z = 0 := by
  unfold recCount
  rw [List.length_eq_zero, List.filter_eq_nil_iff]
  intro p hp hcon
  rw [decide_eq_true_eq] at hcon
  exact hfresh p hp hcon.2.1

/-- A store holding exactly one provisional ledger row (and nothing else). -/
def ledgerStFix : St :=
  { accounts := [], automations := [], processedComments :=
      [{ instagramAccountId := "A1", commentId := "C1", automationId := "AU1",
         action := "processing" }],
    activityLogs := [], followers := [], scheduledMessages := [],
    webhookCache := [], nextId := 0 }

/-- C1: delivering the same inbound comment event twice is idempotent.
Starting from any store whose accounts all carry one id `A` and whose
ledger holds no row for the event's comment, after two deliveries (at any
two clocks, so both the dedup-cache-hit and the cache-expired ledger-check
paths are covered) every (account, comment, automation) triple for this
comment has at most one ledger row, the second delivery never removes a
row the first created, and the activity log gains at most one row per
automation id across both runs. `markCommentProcessed` on an already
recorded key returns a stored row and leaves the store unchanged. On the
concrete fixture the two runs leave exactly the one provisional row and
the second run places no outbound call. -/
theorem comment_pipeline_idempotent (o : Oracle) (now : NowTime) (t1 t2 : Nat)
    (igUserId : String) (cd : CommentData) (st : St) (A x z : String)
    (st' : St) (x' y' w' act' : String)
    (hacc : ∀ b ∈ st.accounts, b.id = A)
    (hfresh : ∀ p ∈ st.processedComments, p.commentId ≠ cd.id)
    (hproc : isCommentProcessed st' x' y' w' = true) :
    recCount (processCommentChange o now t2 igUserId cd
        (processCommentChange o now t1 igUserId cd st).1).1 x cd.id z ≤ 1 ∧
    recCount (processCommentChange o now t1 igUserId cd st).1 x cd.id z ≤
      recCount (processCommentChange o now t2 igUserId cd
        (processCommentChange o now t1 igUserId cd st).1).1 x cd.id z ∧
    actCount (processCommentChange o now t2 igUserId cd
        (processCommentChange o now t1 igUserId cd st).1).1 z ≤ actCount st z + 1 ∧
    (markCommentProcessed st' x' y' w' act').2 = st' ∧
    (markCommentProcessed st' x' y' w' act').1 ∈ st'.processedComments ∧
    (processCommentChange okOracle noonNow 70000 "B1" commentFix
        (processCommentChange okOracle noonNow 100 "B1" commentFix
          (stWith [commentAutoFix])).1).1.processedComments =
      [{ instagramAccountId := "A1", commentId := "C1", automationId := "AU1",
         action := "processing" }] ∧
    (processCommentChange okOracle noonNow 70000 "B1" commentFix
        (processCommentChange okOracle noonNow 100 "B1" commentFix
          (stWith [commentAutoFix])).1).2 = [] := by
  obtain ⟨p1, p2, p3, p4⟩ :=
    processCommentChange_counts o now t1 igUserId cd st A x cd.id z hacc
  obtain ⟨q1, q2, q3, q4⟩ :=
    processCommentChange_counts o now t2 igUserId cd
      (processCommentChange o now t1 igUserId cd st).1 A x cd.id z p4
  obtain ⟨pa1, pa2, pa3, _⟩ :=
    processCommentChange_counts o now t1 igUserId cd st A A cd.id z hacc
  obtain ⟨qa1, qa2, qa3, _⟩ :=
    processCommentChange_counts o now t2 igUserId cd
      (processCommentChange o now t1 igUserId cd st).1 A A cd.id z p4
  have h0x : recCount st x cd.id z = 0 := recCount_of_fresh st x cd.id z hfresh
  have h0A : recCount st A cd.id z = 0 := recCount_of_fresh st A cd.id z hfresh
  obtain ⟨m1, m2⟩ := markCommentProcessed_of_processed st' x' y' w' act' hproc
  refine ⟨by omega, q1, by omega, m1, m2, by decide, by decide⟩

/-- C1 witness: the idempotence theorem applied at the concrete fixture,
with all three hypotheses discharged there. -/
theorem comment_pipeline_idempotent_witness :
    (∀ b ∈ (stWith [commentAutoFix]).accounts, b.id = "A1") ∧
    (∀ p ∈ (stWith [commentAutoFix]).processedComments, p.commentId ≠ commentFix.id) ∧
    isCommentProcessed ledgerStFix "A1" "C1" "AU1" = true ∧
    (recCount (processCommentChange okOracle noonNow 70000 "B1" commentFix
        (processCommentChange okOracle noonNow 100 "B1" commentFix
          (stWith [commentAutoFix])).1).1 "A1" commentFix.id "AU1" ≤ 1 ∧
     recCount (processCommentChange okOracle noonNow 100 "B1" commentFix
        (stWith [commentAutoFix])).1 "A1" commentFix.id "AU1" ≤
       recCount (processCommentChange okOracle noonNow 70000 "B1" commentFix
        (processCommentChange okOracle noonNow 100 "B1" commentFix
          (stWith [commentAutoFix])).1).1 "A1" commentFix.id "AU1" ∧
     actCount (processCommentChange okOracle noonNow 70000 "B1" commentFix
        (processCommentChange okOracle noonNow 100 "B1" commentFix
          (stWith [commentAutoFix])).1).1 "AU1" ≤
       actCount (stWith [commentAutoFix]) "AU1" + 1 ∧
     (markCommentProcessed ledgerStFix "A1" "C1" "AU1" "dm_sent").2 = ledgerStFix ∧
     (markCommentProcessed ledgerStFix "A1" "C1" "AU1" "dm_sent").1 ∈
       ledgerStFix.processedComments ∧
     (processCommentChange okOracle noonNow 70000 "B1" commentFix
        (processCommentChange okOracle noonNow 100 "B1" commentFix
          (stWith [commentAutoFix])).1).1.processedComments =
       [{ instagramAccountId := "A1", commentId := "C1", automationId := "AU1",
          action := "processing" }] ∧
     (processCommentChange okOracle noonNow 70000 "B1" commentFix
        (processCommentChange okOracle noonNow 100 "B1" commentFix
          (stWith [commentAutoFix])).1).2 = []) :=
  ⟨by decide, by decide, by decide,
    comment_pipeline_idempotent okOracle noonNow 100 70000 "B1" commentFix
      (stWith [commentAutoFix]) "A1" "A1" "AU1" ledgerStFix "A1" "C1" "AU1" "dm_sent"
      (by decide) (by decide) (by decide)⟩

end Insta
